import Mathlib

/-!
# dogwalker-Backend: authorization gate and rate limiter

A shallow embedding of `middleware/auth.js` and of `generateToken` from
`controllers/authController.js`.

* An Express middleware `(req, res, next) => ...` becomes a function from the
  request to an `Outcome`: either `next req'` (the request, with whatever the
  middleware attached, is handed on) or `respond r` (`res.status(..).json(..)`
  was sent and `next` was not called).
* The two external collaborators, the `jsonwebtoken` package and the Prisma
  client, are parameters: `JwtLib` and the `findUnique` function.
* The `requests` map that `rateLimiter` closes over is passed explicitly and
  returned.
-/

set_option autoImplicit false

namespace DogWalker

/-! ## JavaScript values -/

/-- The JavaScript values a request can carry: JSON values and `undefined`.
Numbers are restricted to integers. -/
inductive JsVal where
  | undefined
  | null
  | bool (b : Bool)
  | num (n : Int)
  | str (s : String)
  | object
  deriving DecidableEq, Repr

/-- Truthiness, as used by `!x` and `x || y`. -/
def JsVal.truthy : JsVal → Bool
  | .undefined => false
  | .null => false
  | .bool b => b
  | .num n => n != 0
  | .str s => s != ""
  | .object => true

/-- The operator `a === b`. Primitives are compared by value; two objects that
come from different places of a request are never the same reference. -/
def JsVal.strictEq : JsVal → JsVal → Bool
  | .object, _ => false
  | _, .object => false
  | a, b => a = b

/-- A plain object, as a list of its properties. -/
abbrev JsObject := List (String × JsVal)

/-- The names every plain object inherits from `Object.prototype`. -/
def objectPrototypeNames : List String :=
  ["constructor", "__defineGetter__", "__defineSetter__", "hasOwnProperty",
    "__lookupGetter__", "__lookupSetter__", "isPrototypeOf", "propertyIsEnumerable",
    "toString", "valueOf", "__proto__", "toLocaleString"]

/-- The property read `obj[key]` on a plain object: the own property when
there is one, else the member inherited from `Object.prototype` (a function,
or the prototype itself for `__proto__`) when the key names one, else
`undefined`. -/
def JsObject.get (obj : JsObject) (key : String) : JsVal :=
  match obj.find? (fun p => p.1 = key) with
  | some p => p.2
  | none => if key ∈ objectPrototypeNames then .object else .undefined

/-- A slot of the request that a middleware may have filled: `req.user` and
`req.userDetails` are `undefined` until a middleware assigns them. -/
inductive Slot (α : Type) where
  | undefined
  | null
  | val (a : α)
  deriving DecidableEq, Repr

/-- The pieces of a character list between occurrences of `sep`. -/
def splitChars (sep : Char) : List Char → List (List Char)
  | [] => [[]]
  | c :: cs =>
    if c = sep then [] :: splitChars sep cs
    else
      match splitChars sep cs with
      | [] => [[c]]
      | p :: ps => (c :: p) :: ps

/-- The method `s.split(sep)` for a one-character separator. -/
def jsSplit (s : String) (sep : Char) : List String :=
  (splitChars sep s.data).map String.mk

/-- The method `parts.join(sep)` on an array of strings. -/
def jsJoin (sep : String) : List String → String
  | [] => ""
  | [a] => a
  | a :: b :: rest => a ++ sep ++ jsJoin sep (b :: rest)

/-! ## Collaborators -/

/-- The decoded payload of a session credential. Clock values are in seconds,
as `jsonwebtoken` stores them. -/
structure Claims where
  userId : JsVal
  iat : Nat
  exp : Nat
  deriving DecidableEq, Repr

/-- The ways `jwt.verify` fails. -/
inductive JwtFailure where
  /-- The token cannot be parsed: `JsonWebTokenError('jwt malformed')`. -/
  | malformed
  /-- The signature does not match: `JsonWebTokenError('invalid signature')`. -/
  | invalidSignature
  /-- The token is past `exp`: `TokenExpiredError('jwt expired')`. -/
  | expired
  /-- The token is before `nbf`: `NotBeforeError('jwt not active')`. -/
  | notBefore
  /-- Any other `JsonWebTokenError`, such as a missing secret. -/
  | invalid (reason : String)
  deriving DecidableEq, Repr

/-- The `name` property of the error object `jsonwebtoken` throws. -/
def JwtFailure.name : JwtFailure → String
  | .malformed => "JsonWebTokenError"
  | .invalidSignature => "JsonWebTokenError"
  | .expired => "TokenExpiredError"
  | .notBefore => "NotBeforeError"
  | .invalid _ => "JsonWebTokenError"

/-- The error classes of the Prisma client. -/
inductive PrismaFailure where
  | knownRequest
  | unknownRequest
  | rustPanic
  | initialization
  | validation
  deriving DecidableEq, Repr

/-- The `name` property of the error object the Prisma client throws. -/
def PrismaFailure.name : PrismaFailure → String
  | .knownRequest => "PrismaClientKnownRequestError"
  | .unknownRequest => "PrismaClientUnknownRequestError"
  | .rustPanic => "PrismaClientRustPanicError"
  | .initialization => "PrismaClientInitializationError"
  | .validation => "PrismaClientValidationError"

deriving instance DecidableEq for Except

/-- An exception reaching the `catch` block of `authenticateToken`. -/
inductive Thrown where
  | jwt (e : JwtFailure)
  | prisma (e : PrismaFailure)
  deriving DecidableEq, Repr

/-- The property `error.name`. -/
def Thrown.name : Thrown → String
  | .jwt e => e.name
  | .prisma e => e.name

/-- The `jsonwebtoken` package. `sign payload secret expiresIn clock` is
`jwt.sign({ userId }, secret, { expiresIn })` (`none` when it throws),
`verify token secret clock` is `jwt.verify(token, secret)`, and `timespan` reads
an `expiresIn` string as a number of seconds. -/
structure JwtLib where
  sign : JsVal → Option String → String → Nat → Option String
  verify : String → Option String → Nat → Except JwtFailure Claims
  timespan : String → Option Nat

/-- The variables of `process.env` the code reads. -/
structure Env where
  JWT_SECRET : Option String
  JWT_EXPIRES_IN : Option String
  deriving DecidableEq, Repr

/-- The identity snapshot selected by `prisma.user.findUnique`. -/
structure User where
  id : JsVal
  email : String
  firstName : String
  lastName : String
  userType : String
  isActive : Bool
  deriving DecidableEq, Repr

/-- The call `prisma.user.findUnique({ where: { id }, select })` at the moment
of the request: it throws, or resolves to `null` (`none`) or to a user. -/
abbrev IdentitySource := JsVal → Except PrismaFailure (Option User)

/-! ## Requests and responses -/

/-- The text of a response message. The rate limiter interpolates two numbers
into its message, one of them through a floating-point division; they are kept
as numbers. -/
inductive Message where
  | text (s : String)
  | limitExceeded (maxRequests windowMs : Int)
  deriving DecidableEq, Repr

/-- The response `res.status(status).json({ error, message })`. -/
structure Response where
  status : Nat
  error : String
  message : Message
  deriving DecidableEq, Repr

/-- The parts of an Express request the middlewares read or write. -/
structure Req where
  /-- The header `req.headers['authorization']`. -/
  authorization : Option String
  params : JsObject
  /-- The parsed body; `none` when no body parser has set it. -/
  body : Option JsObject
  ip : Option String
  /-- The address `req.connection.remoteAddress`. -/
  remoteAddress : Option String
  user : Slot Claims
  userDetails : Slot User
  deriving DecidableEq, Repr

/-- What a middleware did with a request. -/
inductive Outcome where
  | next (req : Req)
  | respond (res : Response)
  deriving DecidableEq, Repr

/-! ## `controllers/authController.js` -/

/-- The expression `process.env.JWT_EXPIRES_IN || '7d'`. -/
def Env.expiresIn (env : Env) : String :=
  match env.JWT_EXPIRES_IN with
  | some s => if s != "" then s else "7d"
  | none => "7d"

/-- The function `generateToken`, called at clock reading `clock`; `none` when
`jwt.sign` throws. -/
def generateToken (jwt : JwtLib) (env : Env) (clock : Nat) (userId : JsVal) : Option String :=
  jwt.sign userId env.JWT_SECRET env.expiresIn clock

/-! ## `middleware/auth.js` -/

/-- The expression `authHeader && authHeader.split(' ')[1]`, with `none` for
`undefined`. -/
def bearerToken (authHeader : Option String) : Option String :=
  match authHeader with
  | none => none
  | some h => if h = "" then some "" else (jsSplit h ' ')[1]?

/-- The test `!token`. -/
def tokenMissing : Option String → Bool
  | none => true
  | some t => t = ""

/-- The `catch` block of `authenticateToken`. -/
def authenticateTokenCatch (error : Thrown) : Response :=
  if error.name = "JsonWebTokenError" then
    { status := 401, error := "Token inválido",
      message := .text "El token proporcionado no es válido" }
  else if error.name = "TokenExpiredError" then
    { status := 401, error := "Token expirado",
      message := .text "El token ha expirado, por favor inicia sesión nuevamente" }
  else
    { status := 500, error := "Error interno del servidor",
      message := .text "No se pudo verificar la autenticación" }

/-- The middleware `authenticateToken`. -/
def authenticateToken (jwt : JwtLib) (env : Env) (findUnique : IdentitySource) (clock : Nat)
    (req : Req) : Outcome :=
  let token := bearerToken req.authorization
  if tokenMissing token then
    .respond { status := 401, error := "Token requerido",
               message := .text "No se proporcionó un token de autenticación" }
  else
    match jwt.verify (token.getD "") env.JWT_SECRET clock with
    | .error e => .respond (authenticateTokenCatch (.jwt e))
    | .ok decoded =>
      match findUnique decoded.userId with
      | .error e => .respond (authenticateTokenCatch (.prisma e))
      | .ok none =>
        .respond { status := 401, error := "Usuario no encontrado",
                   message := .text "El token no corresponde a un usuario válido" }
      | .ok (some user) =>
        if !user.isActive then
          .respond { status := 401, error := "Cuenta desactivada",
                     message := .text "Tu cuenta ha sido desactivada" }
        else
          .next { req with user := .val decoded, userDetails := .val user }

/-- The middleware `optionalAuth`. -/
def optionalAuth (jwt : JwtLib) (env : Env) (findUnique : IdentitySource) (clock : Nat)
    (req : Req) : Outcome :=
  let token := bearerToken req.authorization
  if tokenMissing token then
    .next { req with user := .null, userDetails := .null }
  else
    match jwt.verify (token.getD "") env.JWT_SECRET clock with
    | .error _ => .next { req with user := .null, userDetails := .null }
    | .ok decoded =>
      match findUnique decoded.userId with
      | .error _ => .next { req with user := .null, userDetails := .null }
      | .ok none => .next { req with user := .null, userDetails := .null }
      | .ok (some user) =>
        if user.isActive then
          .next { req with user := .val decoded, userDetails := .val user }
        else
          .next { req with user := .null, userDetails := .null }

/-- The argument of `requireUserType`: one role name or an array of them. -/
inductive UserTypes where
  | one (userType : String)
  | many (userTypes : List String)
  deriving DecidableEq, Repr

/-- The expression `Array.isArray(userTypes) ? userTypes : [userTypes]`. -/
def UserTypes.allowedTypes : UserTypes → List String
  | .one t => [t]
  | .many ts => ts

/-- The middleware `requireUserType(userTypes)`. Reading `userType` from a
`req.userDetails` that is `undefined` or `null` throws, which the `catch` block
answers. -/
def requireUserType (userTypes : UserTypes) (req : Req) : Outcome :=
  match req.userDetails with
  | .val details =>
    let userType := details.userType
    let allowedTypes := userTypes.allowedTypes
    if !allowedTypes.contains userType then
      .respond { status := 403, error := "Acceso denegado",
                 message := .text ("Esta acción requiere ser: " ++ jsJoin " o " allowedTypes) }
    else
      .next req
  | _ =>
    .respond { status := 500, error := "Error interno del servidor",
               message := .text "No se pudo verificar el tipo de usuario" }

/-- The expression `req.params[resourceField] || req.body[resourceField]`;
`none` when it throws because `req.body` is `undefined`. -/
def resourceUserId (resourceField : String) (req : Req) : Option JsVal :=
  let fromParams := req.params.get resourceField
  if fromParams.truthy then some fromParams
  else
    match req.body with
    | none => none
    | some body => some (body.get resourceField)

/-- The middleware `requireOwnership(resourceField)`. -/
def requireOwnership (resourceField : String) (req : Req) : Outcome :=
  match req.user with
  | .val user =>
    let currentUserId := user.userId
    match resourceUserId resourceField req with
    | some resource =>
      if !currentUserId.strictEq resource then
        .respond { status := 403, error := "Acceso denegado",
                   message := .text "No tienes permisos para acceder a este recurso" }
      else
        .next req
    | none =>
      .respond { status := 500, error := "Error interno del servidor",
                 message := .text "No se pudo verificar la propiedad del recurso" }
  | _ =>
    .respond { status := 500, error := "Error interno del servidor",
               message := .text "No se pudo verificar la propiedad del recurso" }

/-- A key of the `requests` map: a client address, or `undefined`. -/
abbrev ClientKey := Option String

/-- The `requests` map of one limiter: for each key, the stored array of
timestamps in milliseconds, or `none` when the key is absent. -/
abbrev RequestMap := ClientKey → Option (List Int)

/-- The map `new Map()`. -/
def RequestMap.empty : RequestMap := fun _ => none

/-- The call `requests.set(key, value)`. -/
def RequestMap.set (requests : RequestMap) (key : ClientKey) (value : List Int) : RequestMap :=
  fun k => if k = key then some value else requests k

/-- The expression `req.ip || req.connection.remoteAddress`. -/
def clientKey (req : Req) : ClientKey :=
  match req.ip with
  | some a => if a != "" then some a else req.remoteAddress
  | none => req.remoteAddress

/-- The middleware `rateLimiter(maxRequests, windowMs)` handling one request at
clock reading `now`: the map it leaves behind and what it did. -/
def rateLimiter (maxRequests windowMs : Int) (requests : RequestMap) (now : Int) (req : Req) :
    RequestMap × Outcome :=
  let ip := clientKey req
  let windowStart := now - windowMs
  let requests := if (requests ip).isNone then requests.set ip [] else requests
  let userRequests := (requests ip).getD []
  let recentRequests := userRequests.filter (fun time => time > windowStart)
  if (recentRequests.length : Int) ≥ maxRequests then
    (requests, .respond { status := 429, error := "Demasiadas peticiones",
                          message := .limitExceeded maxRequests windowMs })
  else
    (requests.set ip (recentRequests ++ [now]), .next req)

/-- The limiter handling a sequence of requests, each with its clock reading,
oldest first: the final map and what it did with each request. -/
def rateLimiterRun (maxRequests windowMs : Int) :
    RequestMap → List (Int × Req) → RequestMap × List Outcome
  | requests, [] => (requests, [])
  | requests, (now, req) :: rest =>
    let step := rateLimiter maxRequests windowMs requests now req
    let tail := rateLimiterRun maxRequests windowMs step.1 rest
    (tail.1, step.2 :: tail.2)

/-! ## Definitions used to state the properties -/

/-- The credential check in the words of the specification: the header yields
a token, the token verifies, and the identity lookup finds an active user. The
result is the decoded payload and the identity snapshot. -/
def grantedIdentity (jwt : JwtLib) (env : Env) (findUnique : IdentitySource) (clock : Nat)
    (req : Req) : Option (Claims × User) :=
  match bearerToken req.authorization with
  | none => none
  | some token =>
    if token = "" then none
    else
      match jwt.verify token env.JWT_SECRET clock with
      | .error _ => none
      | .ok decoded =>
        match findUnique decoded.userId with
        | .ok (some user) => if user.isActive = true then some (decoded, user) else none
        | _ => none

/-- The string `part` occurs inside the string `whole`. -/
def Mentions (whole part : String) : Prop :=
  ∃ before after : String, whole = before ++ part ++ after

/-- The contract of `jsonwebtoken` that the code relies on. Signing needs a
secret. A token signed with a secret at `clock` is a non-empty string without a
space, its lifetime is the configured time span, and verifying it with the same
secret at any clock reading before its expiry returns the signed payload with
`iat = clock` and `exp = clock + ttl`. -/
def JwtLib.Faithful (jwt : JwtLib) : Prop :=
  (∀ userId expiresIn clock, jwt.sign userId none expiresIn clock = none) ∧
  ∀ (userId : JsVal) (secret expiresIn : String) (clock : Nat) (token : String),
    jwt.sign userId (some secret) expiresIn clock = some token →
      token ≠ "" ∧ ' ' ∉ token.data ∧
      ∃ ttl, jwt.timespan expiresIn = some ttl ∧
        ∀ later, later < clock + ttl →
          jwt.verify token (some secret) later = .ok ⟨userId, clock, clock + ttl⟩

/-! ## A small token library and sample data

`sampleJwt` is a toy stand-in for `jsonwebtoken`, used to evaluate the
middlewares on concrete requests. A token is `secret.iat.exp.userId` with the
two clock values written in unary. -/

/-- The characters of a sample token. -/
def sampleTokenChars (secret : String) (iat exp : Nat) (userId : String) : List Char :=
  secret.data ++ '.' :: (List.replicate iat '1' ++ '.' :: (List.replicate exp '1' ++ '.' :: userId.data))

/-- Whether a string can be a field of a sample token. -/
def sampleField (s : String) : Bool :=
  !s.data.contains '.' && !s.data.contains ' '

/-- The time spans the sample library understands. -/
def sampleTimespan (expiresIn : String) : Option Nat :=
  if expiresIn = "7d" then some 604800
  else if expiresIn = "1h" then some 3600
  else if expiresIn = "2s" then some 2
  else none

/-- Signing in the sample library: string ids only. -/
def sampleSign (userId : JsVal) (secret : Option String) (expiresIn : String) (clock : Nat) :
    Option String :=
  match userId, secret, sampleTimespan expiresIn with
  | .str u, some k, some ttl =>
    if sampleField k && sampleField u then
      some (String.mk (sampleTokenChars k clock (clock + ttl) u))
    else none
  | _, _, _ => none

/-- Verification in the sample library: parse, then signature, then expiry. -/
def sampleVerify (token : String) (secret : Option String) (clock : Nat) :
    Except JwtFailure Claims :=
  match secret with
  | none => .error (.invalid "secret or public key must be provided")
  | some k =>
    match splitChars '.' token.data with
    | [sig, i, e, u] =>
      if i.all (fun c => c = '1') && e.all (fun c => c = '1') then
        if sig ≠ k.data then .error .invalidSignature
        else if clock ≥ e.length then .error .expired
        else .ok { userId := .str (String.mk u), iat := i.length, exp := e.length }
      else .error .malformed
    | _ => .error .malformed

/-- The sample token library. -/
def sampleJwt : JwtLib :=
  { sign := sampleSign, verify := sampleVerify, timespan := sampleTimespan }

/-- A sample environment. -/
def sampleEnv : Env :=
  { JWT_SECRET := some "k", JWT_EXPIRES_IN := some "2s" }

/-- A sample active walker. -/
def sampleWalker : User :=
  { id := .str "u1", email := "ana@example.com", firstName := "Ana", lastName := "Paz",
    userType := "WALKER", isActive := true }

/-- A sample owner whose account is deactivated. -/
def sampleInactive : User :=
  { id := .str "u2", email := "luis@example.com", firstName := "Luis", lastName := "Rey",
    userType := "OWNER", isActive := false }

/-- A sample identity source: two accounts, and a store that is unreachable
for the id `"down"`. -/
def sampleUsers : IdentitySource := fun id =>
  if id = .str "u1" then .ok (some sampleWalker)
  else if id = .str "u2" then .ok (some sampleInactive)
  else if id = .str "down" then .error .initialization
  else .ok none

/-- A request that carries only an `Authorization` header. -/
def requestWithHeader (header : Option String) : Req :=
  { authorization := header, params := [], body := some [], ip := some "10.0.0.1",
    remoteAddress := some "10.0.0.1", user := .undefined, userDetails := .undefined }

/-- A sample identity with the role `OWNER`. -/
def sampleOwner : User :=
  { id := .str "u3", email := "eva@example.com", firstName := "Eva", lastName := "Gil",
    userType := "OWNER", isActive := true }

/-- A request as `authenticateToken` hands it on for the subject `u3`, with the
given path parameters and body. -/
def ownerRequest (params : JsObject) (body : Option JsObject) : Req :=
  { authorization := some "Bearer k.1.111.u3", params := params, body := body,
    ip := some "10.0.0.1", remoteAddress := some "10.0.0.1",
    user := .val { userId := .str "u3", iat := 1, exp := 3 }, userDetails := .val sampleOwner }

/-- The response of `rateLimiter` to a rejected request. -/
def limitResponse (maxRequests windowMs : Int) : Response :=
  { status := 429, error := "Demasiadas peticiones",
    message := .limitExceeded maxRequests windowMs }

/-- The timestamps stored for a key, none when the key is absent. -/
def RequestMap.stored (requests : RequestMap) (key : ClientKey) : List Int :=
  (requests key).getD []

/-- The count in the words of the specification: how many timestamps stored
for the key lie in the closed interval from `now - windowMs` to `now`. -/
def storedInClosedWindow (requests : RequestMap) (key : ClientKey) (now windowMs : Int) : Nat :=
  ((requests.stored key).filter (fun time => now - windowMs ≤ time ∧ time ≤ now)).length

/-- The outcomes that belong to the requests of one client key. -/
def outcomesFor (key : ClientKey) : List (Int × Req) → List Outcome → List Outcome
  | (_, req) :: events, out :: outs =>
    if clientKey req = key then out :: outcomesFor key events outs
    else outcomesFor key events outs
  | _, _ => []

/-- The clock readings of the requests of one client key, oldest first. -/
def timesFor (key : ClientKey) (events : List (Int × Req)) : List Int :=
  (events.filter (fun e => clientKey e.2 = key)).map (fun e => e.1)

/-- The clock readings of the requests of one client key that were allowed. -/
def allowedTimes (key : ClientKey) : List (Int × Req) → List Outcome → List Int
  | (now, req) :: events, .next _ :: outs =>
    if clientKey req = key then now :: allowedTimes key events outs
    else allowedTimes key events outs
  | _ :: events, .respond _ :: outs => allowedTimes key events outs
  | _, _ => []

/-- A request without credentials from the given address. -/
def clientRequest (address : String) : Req :=
  { authorization := none, params := [], body := some [], ip := some address,
    remoteAddress := some address, user := .undefined, userDetails := .undefined }

/-- The bound that a limiter keeps on what it stores: for every key, the list
of timestamps is empty or has at most `maxRequests` entries. -/
def StoredBounded (maxRequests : Int) (requests : RequestMap) : Prop :=
  ∀ key, requests.stored key = [] ∨ ((requests.stored key).length : Int) ≤ maxRequests

/-! ## `server.js`: the realtime handlers

The socket.io server is not part of the repository. Its room registry is
modelled from the specification: a room is the list of the connections in it,
joining is idempotent, a broadcast reaches every connection of the room at the
moment of the call, and closing a connection removes it from every room. -/

/-- The id of a connection, `socket.id`. -/
abbrev SocketId := String

/-- Modelled from the spec: the room registry of the socket.io server, which
is outside the repository. For each room name, the connections that are in the
room. -/
abbrev Rooms := String → List SocketId

/-- Modelled from the spec: the registry of a server that has just started;
no room has a member. -/
def Rooms.empty : Rooms := fun _ => []

/-- Modelled from the spec: `socket.join(room)`, which the socket.io package
provides. Membership is idempotent: joining twice has no extra effect. -/
def Rooms.join (rooms : Rooms) (room : String) (socket : SocketId) : Rooms :=
  fun r =>
    if r = room then (if socket ∈ rooms r then rooms r else rooms r ++ [socket])
    else rooms r

/-- Modelled from the spec: what the socket.io package does when a connection
closes; the connection is removed from every room it was a member of. -/
def Rooms.leaveAll (rooms : Rooms) (socket : SocketId) : Rooms :=
  fun r => (rooms r).filter (fun s => s ≠ socket)

/-- The string a value becomes inside a template literal. A safe integer is
written with its decimal digits. The text of a number outside the safe range,
which the language writes from its floating-point value (exponent form from
`1e21` on), and the text of an object, which depends on the object, are given
by `otherText`. -/
def JsVal.toJsString (otherText : JsVal → String) : JsVal → String
  | .undefined => "undefined"
  | .null => "null"
  | .bool true => "true"
  | .bool false => "false"
  | .num n => if n.natAbs ≤ 9007199254740991 then toString n else otherText (.num n)
  | .str s => s
  | .object => otherText .object

/-- The payload of a `receive_message` event. The timestamp is the clock
reading of the server, which is sent in its ISO rendering. -/
structure ReceiveMessage where
  message : JsVal
  senderId : JsVal
  timestamp : Int
  deriving DecidableEq, Repr

/-- One event arriving at one connection. -/
structure Delivery where
  socket : SocketId
  name : String
  payload : ReceiveMessage
  deriving DecidableEq, Repr

/-- Modelled from the spec: `io.to(room).emit(name, payload)`, which the
socket.io package provides. The event is delivered to every connection that is
in the room at the moment of the call. -/
def Rooms.emitTo (rooms : Rooms) (room : String) (name : String) (payload : ReceiveMessage) :
    List Delivery :=
  (rooms room).map (fun socket => { socket := socket, name := name, payload := payload })

/-- The template literal that names the room of a service. -/
def roomName (otherText : JsVal → String) (serviceId : JsVal) : String :=
  "service_" ++ serviceId.toJsString otherText

/-- The handler of `join_service` on the connection `socket`. -/
def joinService (otherText : JsVal → String) (rooms : Rooms) (socket : SocketId)
    (serviceId : JsVal) : Rooms :=
  rooms.join (roomName otherText serviceId) socket

/-- The handler of `send_message` on the connection `_sender`, at the server
clock reading `clock`. The payload is `none` for `undefined` or `null`, where
the destructuring throws; the result is then `none`. -/
def sendMessage (otherText : JsVal → String) (rooms : Rooms) (_sender : SocketId) (clock : Int)
    (data : Option JsObject) : Option (List Delivery) :=
  match data with
  | none => none
  | some data =>
    let serviceId := data.get "serviceId"
    let message := data.get "message"
    let senderId := data.get "senderId"
    some (rooms.emitTo (roomName otherText serviceId) "receive_message"
      { message := message, senderId := senderId, timestamp := clock })

/-- What a connection asks of the server. -/
inductive SocketEvent where
  | joinService (socket : SocketId) (serviceId : JsVal)
  | sendMessage (socket : SocketId) (data : Option JsObject)
  | disconnect (socket : SocketId)
  deriving DecidableEq, Repr

/-- The room registry after the server handles one event. -/
def serverStep (otherText : JsVal → String) (rooms : Rooms) : SocketEvent → Rooms
  | .joinService socket serviceId => joinService otherText rooms socket serviceId
  | .sendMessage _ _ => rooms
  | .disconnect socket => rooms.leaveAll socket

/-- The room registry after the server handles a sequence of events. -/
def serverRun (otherText : JsVal → String) (rooms : Rooms) (events : List SocketEvent) : Rooms :=
  events.foldl (serverStep otherText) rooms

/-- A text for the values whose text is not modelled, for sample data. -/
def sampleOtherText : JsVal → String :=
  fun _ => "[object Object]"

/-- How many events of a broadcast arrive at a connection. -/
def deliveredTo (deliveries : List Delivery) (socket : SocketId) : Nat :=
  (deliveries.filter (fun d => d.socket = socket)).length

/-! ## Helper lemmas -/

theorem tokenMissing_eq_false_iff (t : Option String) :
    tokenMissing t = false ↔ ∃ token, t = some token ∧ token ≠ "" := by
  cases t with
  | none => simp [tokenMissing]
  | some token => simp [tokenMissing]

theorem grantedIdentity_eq_some_iff (jwt : JwtLib) (env : Env) (findUnique : IdentitySource)
    (clock : Nat) (req : Req) (decoded : Claims) (user : User) :
    grantedIdentity jwt env findUnique clock req = some (decoded, user) ↔
      ∃ token, bearerToken req.authorization = some token ∧ token ≠ "" ∧
        jwt.verify token env.JWT_SECRET clock = .ok decoded ∧
        findUnique decoded.userId = .ok (some user) ∧ user.isActive = true := by
  unfold grantedIdentity
  cases hb : bearerToken req.authorization with
  | none => simp
  | some token =>
    by_cases ht : token = ""
    · simp [ht]
    · simp only [ht, if_false, Option.some.injEq, exists_eq_left']
      cases hv : jwt.verify token env.JWT_SECRET clock with
      | error e => simp
      | ok d =>
        simp only [Except.ok.injEq]
        constructor
        · intro h
          cases hf : findUnique d.userId with
          | error e => simp [hf] at h
          | ok found =>
            cases found with
            | none => simp [hf] at h
            | some u =>
              by_cases hact : u.isActive = true
              · simp only [hf, hact, if_true, Option.some.injEq, Prod.mk.injEq] at h
                obtain ⟨rfl, rfl⟩ := h
                exact ⟨ht, rfl, hf, hact⟩
              · simp [hf, hact] at h
        · rintro ⟨-, rfl, hf, hact⟩
          simp [hf, hact]

/-- What `authenticateToken` does, by the credential check. -/
theorem authenticateToken_of_granted (jwt : JwtLib) (env : Env) (findUnique : IdentitySource)
    (clock : Nat) (req : Req) (decoded : Claims) (user : User)
    (h : grantedIdentity jwt env findUnique clock req = some (decoded, user)) :
    authenticateToken jwt env findUnique clock req =
      .next { req with user := .val decoded, userDetails := .val user } := by
  obtain ⟨token, hb, ht, hv, hf, hact⟩ :=
    (grantedIdentity_eq_some_iff jwt env findUnique clock req decoded user).mp h
  simp [authenticateToken, hb, tokenMissing, ht, hv, hf, hact]

theorem authenticateToken_of_not_granted (jwt : JwtLib) (env : Env) (findUnique : IdentitySource)
    (clock : Nat) (req : Req)
    (h : grantedIdentity jwt env findUnique clock req = none) :
    ∃ res, authenticateToken jwt env findUnique clock req = .respond res ∧
      (res.status = 401 ∨ res.status = 500) := by
  unfold grantedIdentity at h
  unfold authenticateToken
  cases hb : bearerToken req.authorization with
  | none => simp [tokenMissing]
  | some token =>
    rw [hb] at h
    by_cases ht : token = ""
    · simp [tokenMissing, ht]
    · simp only [ht, if_false] at h
      simp only [tokenMissing, ht, decide_False, Bool.false_eq_true, if_false, Option.getD_some]
      cases hv : jwt.verify token env.JWT_SECRET clock with
      | error e =>
        simp only [authenticateTokenCatch]
        split_ifs <;> simp
      | ok d =>
        simp only [hv] at h
        simp only []
        cases hf : findUnique d.userId with
        | error e =>
          simp only [authenticateTokenCatch]
          split_ifs <;> simp
        | ok found =>
          cases found with
          | none => simp
          | some u =>
            by_cases hact : u.isActive = true
            · simp [hf, hact] at h
            · simp [hact]

/-! ## The authorization gate: `authenticateToken` and `optionalAuth` -/

/-- C1: `authenticateToken` calls `next` exactly when the `Authorization`
header yields a token, the token verifies, and the identity lookup returns a
user whose `isActive` is true; the request it hands on carries the decoded
payload as `req.user` and the fetched snapshot as `req.userDetails`. In every
other case it sends an error response (401 or 500) and does not call `next`. -/
theorem authenticateToken_next_iff (jwt : JwtLib) (env : Env) (findUnique : IdentitySource)
    (clock : Nat) (req : Req) :
    (∀ req', authenticateToken jwt env findUnique clock req = .next req' ↔
      ∃ token decoded user, bearerToken req.authorization = some token ∧ token ≠ "" ∧
        jwt.verify token env.JWT_SECRET clock = .ok decoded ∧
        findUnique decoded.userId = .ok (some user) ∧ user.isActive = true ∧
        req' = { req with user := .val decoded, userDetails := .val user }) ∧
    ((¬ ∃ token decoded user, bearerToken req.authorization = some token ∧ token ≠ "" ∧
        jwt.verify token env.JWT_SECRET clock = .ok decoded ∧
        findUnique decoded.userId = .ok (some user) ∧ user.isActive = true) →
      ∃ res, authenticateToken jwt env findUnique clock req = .respond res ∧
        (res.status = 401 ∨ res.status = 500)) := by
  constructor
  · intro req'
    constructor
    · intro h
      cases hg : grantedIdentity jwt env findUnique clock req with
      | none =>
        obtain ⟨res, hres, -⟩ := authenticateToken_of_not_granted jwt env findUnique clock req hg
        rw [hres] at h
        cases h
      | some p =>
        obtain ⟨decoded, user⟩ := p
        have hn := authenticateToken_of_granted jwt env findUnique clock req decoded user hg
        rw [hn] at h
        obtain ⟨token, hb, ht, hv, hf, hact⟩ :=
          (grantedIdentity_eq_some_iff jwt env findUnique clock req decoded user).mp hg
        refine ⟨token, decoded, user, hb, ht, hv, hf, hact, ?_⟩
        exact (Outcome.next.inj h).symm
    · rintro ⟨token, decoded, user, hb, ht, hv, hf, hact, rfl⟩
      exact authenticateToken_of_granted jwt env findUnique clock req decoded user
        ((grantedIdentity_eq_some_iff jwt env findUnique clock req decoded user).mpr
          ⟨token, hb, ht, hv, hf, hact⟩)
  · intro hno
    apply authenticateToken_of_not_granted
    cases hg : grantedIdentity jwt env findUnique clock req with
    | none => rfl
    | some p =>
      obtain ⟨decoded, user⟩ := p
      obtain ⟨token, h⟩ :=
        (grantedIdentity_eq_some_iff jwt env findUnique clock req decoded user).mp hg
      exact absurd ⟨token, decoded, user, h⟩ hno

/-- C2: for a request whose credential verifies, `authenticateToken` answers
401 "Usuario no encontrado" when the identity is not found, 401 with the
different error "Cuenta desactivada" when it is found but inactive, and 500
when the lookup itself fails; a request without a credential is answered
401. -/
theorem authenticateToken_failure_responses (jwt : JwtLib) (env : Env)
    (findUnique : IdentitySource) (clock : Nat) (req : Req) :
    (tokenMissing (bearerToken req.authorization) = true →
      authenticateToken jwt env findUnique clock req =
        .respond { status := 401, error := "Token requerido",
                   message := .text "No se proporcionó un token de autenticación" }) ∧
    (∀ token decoded, bearerToken req.authorization = some token → token ≠ "" →
      jwt.verify token env.JWT_SECRET clock = .ok decoded →
      (findUnique decoded.userId = .ok none →
        authenticateToken jwt env findUnique clock req =
          .respond { status := 401, error := "Usuario no encontrado",
                     message := .text "El token no corresponde a un usuario válido" }) ∧
      (∀ user, findUnique decoded.userId = .ok (some user) → user.isActive = false →
        authenticateToken jwt env findUnique clock req =
          .respond { status := 401, error := "Cuenta desactivada",
                     message := .text "Tu cuenta ha sido desactivada" }) ∧
      (∀ e, findUnique decoded.userId = .error e →
        authenticateToken jwt env findUnique clock req =
          .respond { status := 500, error := "Error interno del servidor",
                     message := .text "No se pudo verificar la autenticación" })) ∧
    ({ status := 401, error := "Usuario no encontrado",
       message := .text "El token no corresponde a un usuario válido" } : Response) ≠
      { status := 401, error := "Cuenta desactivada",
        message := .text "Tu cuenta ha sido desactivada" } := by
  refine ⟨?_, ?_, by decide⟩
  · intro h
    simp [authenticateToken, h]
  · intro token decoded hb ht hv
    refine ⟨?_, ?_, ?_⟩
    · intro hf
      simp [authenticateToken, hb, tokenMissing, ht, hv, hf]
    · intro user hf hact
      simp [authenticateToken, hb, tokenMissing, ht, hv, hf, hact]
    · intro e hf
      have hname : authenticateTokenCatch (.prisma e) =
          { status := 500, error := "Error interno del servidor",
            message := .text "No se pudo verificar la autenticación" } := by
        cases e <;> decide
      simp [authenticateToken, hb, tokenMissing, ht, hv, hf, hname]

theorem optionalAuth_of_granted (jwt : JwtLib) (env : Env) (findUnique : IdentitySource)
    (clock : Nat) (req : Req) (decoded : Claims) (user : User)
    (h : grantedIdentity jwt env findUnique clock req = some (decoded, user)) :
    optionalAuth jwt env findUnique clock req =
      .next { req with user := .val decoded, userDetails := .val user } := by
  obtain ⟨token, hb, ht, hv, hf, hact⟩ :=
    (grantedIdentity_eq_some_iff jwt env findUnique clock req decoded user).mp h
  simp [optionalAuth, hb, tokenMissing, ht, hv, hf, hact]

theorem optionalAuth_of_not_granted (jwt : JwtLib) (env : Env) (findUnique : IdentitySource)
    (clock : Nat) (req : Req)
    (h : grantedIdentity jwt env findUnique clock req = none) :
    optionalAuth jwt env findUnique clock req =
      .next { req with user := .null, userDetails := .null } := by
  unfold grantedIdentity at h
  unfold optionalAuth
  cases hb : bearerToken req.authorization with
  | none => simp [tokenMissing]
  | some token =>
    rw [hb] at h
    by_cases ht : token = ""
    · simp [tokenMissing, ht]
    · simp only [ht, if_false] at h
      simp only [tokenMissing, ht, decide_False, Bool.false_eq_true, if_false, Option.getD_some]
      cases hv : jwt.verify token env.JWT_SECRET clock with
      | error e => rfl
      | ok d =>
        simp only [hv] at h
        simp only []
        cases hf : findUnique d.userId with
        | error e => rfl
        | ok found =>
          cases found with
          | none => rfl
          | some u =>
            by_cases hact : u.isActive = true
            · simp [hf, hact] at h
            · simp [hact]

theorem not_granted_of_no_witness (jwt : JwtLib) (env : Env) (findUnique : IdentitySource)
    (clock : Nat) (req : Req)
    (hno : ¬ ∃ token decoded user, bearerToken req.authorization = some token ∧ token ≠ "" ∧
        jwt.verify token env.JWT_SECRET clock = .ok decoded ∧
        findUnique decoded.userId = .ok (some user) ∧ user.isActive = true) :
    grantedIdentity jwt env findUnique clock req = none := by
  cases hg : grantedIdentity jwt env findUnique clock req with
  | none => rfl
  | some p =>
    obtain ⟨decoded, user⟩ := p
    obtain ⟨token, h⟩ :=
      (grantedIdentity_eq_some_iff jwt env findUnique clock req decoded user).mp hg
    exact absurd ⟨token, decoded, user, h⟩ hno

/-- C3, as the code has it: a credential that fails as Expired is answered 401
"Token expirado", which differs from the answer to a Malformed and to an
InvalidSignature credential; those two are both answered 401 "Token inválido",
with the same response. -/
theorem authenticateToken_verify_failures (jwt : JwtLib) (env : Env)
    (findUnique : IdentitySource) (clock : Nat) (reqM reqS reqE : Req)
    (tokenM tokenS tokenE : String)
    (hM : bearerToken reqM.authorization = some tokenM) (hM' : tokenM ≠ "")
    (hS : bearerToken reqS.authorization = some tokenS) (hS' : tokenS ≠ "")
    (hE : bearerToken reqE.authorization = some tokenE) (hE' : tokenE ≠ "")
    (hvM : jwt.verify tokenM env.JWT_SECRET clock = .error .malformed)
    (hvS : jwt.verify tokenS env.JWT_SECRET clock = .error .invalidSignature)
    (hvE : jwt.verify tokenE env.JWT_SECRET clock = .error .expired) :
    authenticateToken jwt env findUnique clock reqM =
      .respond { status := 401, error := "Token inválido",
                 message := .text "El token proporcionado no es válido" } ∧
    authenticateToken jwt env findUnique clock reqS =
      authenticateToken jwt env findUnique clock reqM ∧
    authenticateToken jwt env findUnique clock reqE =
      .respond { status := 401, error := "Token expirado",
                 message := .text "El token ha expirado, por favor inicia sesión nuevamente" } ∧
    authenticateToken jwt env findUnique clock reqE ≠
      authenticateToken jwt env findUnique clock reqM ∧
    authenticateToken jwt env findUnique clock reqE ≠
      authenticateToken jwt env findUnique clock reqS := by
  have eM : authenticateToken jwt env findUnique clock reqM =
      .respond (authenticateTokenCatch (.jwt .malformed)) := by
    simp [authenticateToken, hM, tokenMissing, hM', hvM]
  have eS : authenticateToken jwt env findUnique clock reqS =
      .respond (authenticateTokenCatch (.jwt .invalidSignature)) := by
    simp [authenticateToken, hS, tokenMissing, hS', hvS]
  have eE : authenticateToken jwt env findUnique clock reqE =
      .respond (authenticateTokenCatch (.jwt .expired)) := by
    simp [authenticateToken, hE, tokenMissing, hE', hvE]
  rw [eM, eS, eE]
  decide

/-- A witness for `authenticateToken_verify_failures`: an unparsable token, a
token signed with another secret and an expired token, at clock reading 5. -/
theorem authenticateToken_verify_failures_witness :
    authenticateToken sampleJwt sampleEnv sampleUsers 5
        (requestWithHeader (some "Bearer k.1.111.u1")) ≠
      authenticateToken sampleJwt sampleEnv sampleUsers 5
        (requestWithHeader (some "Bearer garbage")) :=
  (authenticateToken_verify_failures sampleJwt sampleEnv sampleUsers 5
    (requestWithHeader (some "Bearer garbage")) (requestWithHeader (some "Bearer x.1.111.u1"))
    (requestWithHeader (some "Bearer k.1.111.u1")) "garbage" "x.1.111.u1" "k.1.111.u1"
    (by decide) (by decide) (by decide) (by decide) (by decide) (by decide)
    (by decide) (by decide) (by decide)).2.2.2.1

/-- C3, as stated, fails: a token that cannot be parsed and a token with a
foreign signature fail verification as Malformed and as InvalidSignature, and
`authenticateToken` answers both with the same response. -/
theorem malformed_invalidSignature_same_response :
    sampleJwt.verify "garbage" sampleEnv.JWT_SECRET 5 = .error .malformed ∧
    sampleJwt.verify "x.1.111.u1" sampleEnv.JWT_SECRET 5 = .error .invalidSignature ∧
    authenticateToken sampleJwt sampleEnv sampleUsers 5
        (requestWithHeader (some "Bearer garbage")) =
      authenticateToken sampleJwt sampleEnv sampleUsers 5
        (requestWithHeader (some "Bearer x.1.111.u1")) := by
  decide

/-- C5: `optionalAuth` never sends a response and always calls `next`. When
the token is present, verifies, and the identity is found and active, which is
when `authenticateToken` proceeds, it attaches the decoded payload and the
identity snapshot, the same values `authenticateToken` attaches; in every other
case, a failing verification or lookup included, it attaches `null` and
`null`. -/
theorem optionalAuth_always_next (jwt : JwtLib) (env : Env) (findUnique : IdentitySource)
    (clock : Nat) (req : Req) :
    (∀ res, optionalAuth jwt env findUnique clock req ≠ .respond res) ∧
    (∀ token decoded user, bearerToken req.authorization = some token → token ≠ "" →
      jwt.verify token env.JWT_SECRET clock = .ok decoded →
      findUnique decoded.userId = .ok (some user) → user.isActive = true →
      optionalAuth jwt env findUnique clock req =
        .next { req with user := .val decoded, userDetails := .val user }) ∧
    ((¬ ∃ token decoded user, bearerToken req.authorization = some token ∧ token ≠ "" ∧
        jwt.verify token env.JWT_SECRET clock = .ok decoded ∧
        findUnique decoded.userId = .ok (some user) ∧ user.isActive = true) →
      optionalAuth jwt env findUnique clock req =
        .next { req with user := .null, userDetails := .null }) ∧
    (∀ req', authenticateToken jwt env findUnique clock req = .next req' →
      optionalAuth jwt env findUnique clock req = .next req') ∧
    ((∀ req', authenticateToken jwt env findUnique clock req ≠ .next req') →
      optionalAuth jwt env findUnique clock req =
        .next { req with user := .null, userDetails := .null }) := by
  have key : ∀ p, grantedIdentity jwt env findUnique clock req = p →
      (p = none ∧ optionalAuth jwt env findUnique clock req =
          .next { req with user := .null, userDetails := .null } ∧
        ∀ req', authenticateToken jwt env findUnique clock req ≠ .next req') ∨
      (∃ decoded user, p = some (decoded, user) ∧
        optionalAuth jwt env findUnique clock req =
          .next { req with user := .val decoded, userDetails := .val user } ∧
        authenticateToken jwt env findUnique clock req =
          .next { req with user := .val decoded, userDetails := .val user }) := by
    intro p hp
    cases p with
    | none =>
      left
      refine ⟨rfl, optionalAuth_of_not_granted jwt env findUnique clock req hp, ?_⟩
      intro req' h
      obtain ⟨res, hres, -⟩ := authenticateToken_of_not_granted jwt env findUnique clock req hp
      rw [hres] at h
      cases h
    | some q =>
      right
      obtain ⟨decoded, user⟩ := q
      exact ⟨decoded, user, rfl, optionalAuth_of_granted jwt env findUnique clock req decoded user hp,
        authenticateToken_of_granted jwt env findUnique clock req decoded user hp⟩
  refine ⟨?_, ?_, ?_, ?_, ?_⟩
  · intro res h
    rcases key _ rfl with ⟨-, ho, -⟩ | ⟨d, u, -, ho, -⟩ <;> rw [ho] at h <;> cases h
  · intro token decoded user hb ht hv hf hact
    exact optionalAuth_of_granted jwt env findUnique clock req decoded user
      ((grantedIdentity_eq_some_iff jwt env findUnique clock req decoded user).mpr
        ⟨token, hb, ht, hv, hf, hact⟩)
  · intro hno
    exact optionalAuth_of_not_granted jwt env findUnique clock req
      (not_granted_of_no_witness jwt env findUnique clock req hno)
  · intro req' h
    rcases key _ rfl with ⟨-, -, hn⟩ | ⟨d, u, -, ho, ha⟩
    · exact absurd h (hn req')
    · rw [ha] at h
      rw [ho, ← Outcome.next.inj h]
  · intro hn
    rcases key _ rfl with ⟨-, ho, -⟩ | ⟨d, u, -, -, ha⟩
    · exact ho
    · exact absurd ha (hn _)

/-! ## Issuing a credential and presenting it -/

theorem splitChars_of_not_mem (sep : Char) (l : List Char) (h : sep ∉ l) :
    splitChars sep l = [l] := by
  induction l with
  | nil => rfl
  | cons c cs ih =>
    have hc : c ≠ sep := fun e => h (by simp [e])
    have hcs : sep ∉ cs := fun e => h (List.mem_cons_of_mem _ e)
    simp [splitChars, hc, ih hcs]

theorem splitChars_ne_nil (sep : Char) (l : List Char) : splitChars sep l ≠ [] := by
  induction l with
  | nil => simp [splitChars]
  | cons c cs ih =>
    unfold splitChars
    split_ifs
    · simp
    · split <;> simp

theorem splitChars_append_sep (sep : Char) (a rest : List Char) (h : sep ∉ a) :
    splitChars sep (a ++ sep :: rest) = a :: splitChars sep rest := by
  induction a with
  | nil => simp [splitChars]
  | cons c cs ih =>
    have hc : c ≠ sep := fun e => h (by simp [e])
    have hcs : sep ∉ cs := fun e => h (List.mem_cons_of_mem _ e)
    simp [splitChars, hc, ih hcs]

/-- The header `Bearer <token>` yields the token when the token has no space. -/
theorem bearerToken_bearer (token : String) (h : ' ' ∉ token.data) :
    bearerToken (some ("Bearer " ++ token)) = some token := by
  have hdata : ("Bearer " ++ token).data = ['B', 'e', 'a', 'r', 'e', 'r'] ++ ' ' :: token.data := by
    rw [String.data_append]
    rfl
  have hne : ("Bearer " ++ token) ≠ "" := by
    intro e
    have := congrArg String.data e
    rw [hdata] at this
    simp at this
  simp only [bearerToken, hne, if_false, jsSplit, hdata]
  rw [splitChars_append_sep _ _ _ (by decide), splitChars_of_not_mem _ _ h]
  rfl

theorem sampleField_iff (s : String) : sampleField s = true ↔ '.' ∉ s.data ∧ ' ' ∉ s.data := by
  simp [sampleField]

theorem splitChars_sampleTokenChars (secret userId : String) (iat exp : Nat)
    (hk : '.' ∉ secret.data) (hu : '.' ∉ userId.data) :
    splitChars '.' (sampleTokenChars secret iat exp userId) =
      [secret.data, List.replicate iat '1', List.replicate exp '1', userId.data] := by
  have h1 : ∀ n, '.' ∉ List.replicate n '1' := by
    intro n hmem
    have := List.eq_of_mem_replicate hmem
    exact absurd this (by decide)
  unfold sampleTokenChars
  rw [splitChars_append_sep _ _ _ hk, splitChars_append_sep _ _ _ (h1 iat),
    splitChars_append_sep _ _ _ (h1 exp), splitChars_of_not_mem _ _ hu]

/-- The sample library honours the contract of `jsonwebtoken`. -/
theorem sampleJwt_faithful : sampleJwt.Faithful := by
  constructor
  · intro userId expiresIn clock
    show sampleSign userId none expiresIn clock = none
    cases userId <;> rfl
  · intro userId secret expiresIn clock token h
    change sampleSign userId (some secret) expiresIn clock = some token at h
    cases userId with
    | str u =>
      cases hspan : sampleTimespan expiresIn with
      | none => simp [sampleSign, hspan] at h
      | some ttl =>
        by_cases hfields : (sampleField secret && sampleField u) = true
        · simp only [sampleSign, hspan, hfields, if_true, Option.some.injEq] at h
          rw [Bool.and_eq_true, sampleField_iff, sampleField_iff] at hfields
          obtain ⟨⟨hk, hk'⟩, hu, hu'⟩ := hfields
          have hone : ∀ n, ' ' ∉ List.replicate n '1' := by
            intro n hmem
            exact absurd (List.eq_of_mem_replicate hmem) (by decide)
          subst h
          refine ⟨?_, ?_, ttl, hspan, ?_⟩
          · intro e
            have := congrArg String.data e
            simp [sampleTokenChars] at this
          · intro hmem
            simp only [sampleTokenChars, List.mem_append, List.mem_cons] at hmem
            rcases hmem with hmem | hmem | hmem | hmem | hmem | hmem | hmem
            · exact hk' hmem
            · exact absurd hmem (by decide)
            · exact hone _ hmem
            · exact absurd hmem (by decide)
            · exact hone _ hmem
            · exact absurd hmem (by decide)
            · exact hu' hmem
          · intro later hlater
            show sampleVerify _ (some secret) later = _
            simp only [sampleVerify, splitChars_sampleTokenChars secret u clock (clock + ttl) hk hu]
            have hall : ∀ n, (List.replicate n '1').all (fun c => decide (c = '1')) = true := by
              intro n
              simp [List.all_eq_true]
            simp [hall, List.length_replicate, Nat.not_le.mpr hlater]
        · simp [sampleSign, hspan, hfields] at h
    | undefined => simp [sampleSign] at h
    | null => simp [sampleSign] at h
    | bool b => simp [sampleSign] at h
    | num n => simp [sampleSign] at h
    | object => simp [sampleSign] at h

/-- C4: with a token library that honours the `jsonwebtoken` contract, a
credential that `generateToken` issued for the subject id `s` of an existing
active account, presented as `Authorization: Bearer <credential>` at any clock
reading before its expiry, makes `authenticateToken` proceed, and
`req.user.userId` is `s`. -/
theorem generateToken_then_authenticateToken (jwt : JwtLib) (env : Env)
    (findUnique : IdentitySource) (issued later ttl : Nat) (s : JsVal) (user : User)
    (token : String) (req : Req)
    (hjwt : jwt.Faithful)
    (hissue : generateToken jwt env issued s = some token)
    (httl : jwt.timespan env.expiresIn = some ttl)
    (hlater : later < issued + ttl)
    (hfound : findUnique s = .ok (some user)) (hactive : user.isActive = true)
    (hheader : req.authorization = some ("Bearer " ++ token)) :
    ∃ decoded, authenticateToken jwt env findUnique later req =
        .next { req with user := .val decoded, userDetails := .val user } ∧
      decoded.userId = s := by
  obtain ⟨hnone, hsome⟩ := hjwt
  unfold generateToken at hissue
  cases hsecret : env.JWT_SECRET with
  | none =>
    rw [hsecret, hnone] at hissue
    cases hissue
  | some secret =>
    rw [hsecret] at hissue
    obtain ⟨hne, hspace, ttl', httl', hverify⟩ := hsome s secret env.expiresIn issued token hissue
    rw [httl] at httl'
    cases httl'
    refine ⟨⟨s, issued, issued + ttl⟩, ?_, rfl⟩
    apply authenticateToken_of_granted
    rw [grantedIdentity_eq_some_iff]
    refine ⟨token, ?_, hne, ?_, hfound, hactive⟩
    · rw [hheader]
      exact bearerToken_bearer token hspace
    · rw [hsecret]
      exact hverify later hlater

/-- A witness for `generateToken_then_authenticateToken`: the sample library
issues `k.1.111.u1` for `u1` at clock reading 1 with a lifetime of 2 seconds,
and the credential is presented at clock reading 2. -/
theorem generateToken_then_authenticateToken_witness :
    generateToken sampleJwt sampleEnv 1 (.str "u1") = some "k.1.111.u1" ∧
    ∃ decoded, authenticateToken sampleJwt sampleEnv sampleUsers 2
        (requestWithHeader (some "Bearer k.1.111.u1")) =
        .next { requestWithHeader (some "Bearer k.1.111.u1") with
                user := .val decoded, userDetails := .val sampleWalker } ∧
      decoded.userId = .str "u1" :=
  ⟨by decide,
    generateToken_then_authenticateToken sampleJwt sampleEnv sampleUsers 1 2 2 (.str "u1")
      sampleWalker "k.1.111.u1" (requestWithHeader (some "Bearer k.1.111.u1"))
      sampleJwt_faithful (by decide) (by decide) (by decide) (by decide) (by decide) (by decide)⟩

/-! ## Role and ownership checks -/

theorem mentions_self (a : String) : Mentions a a :=
  ⟨"", "", by simp⟩

theorem mentions_append_left (pre whole part : String) (h : Mentions whole part) :
    Mentions (pre ++ whole) part := by
  obtain ⟨before, after, rfl⟩ := h
  exact ⟨pre ++ before, after, by simp [String.append_assoc]⟩

theorem mentions_append_right (whole post part : String) (h : Mentions whole part) :
    Mentions (whole ++ post) part := by
  obtain ⟨before, after, rfl⟩ := h
  exact ⟨before, after ++ post, by simp [String.append_assoc]⟩

/-- Every element of an array occurs in the joined string. -/
theorem mentions_jsJoin (sep : String) (parts : List String) (a : String) (h : a ∈ parts) :
    Mentions (jsJoin sep parts) a := by
  induction parts with
  | nil => cases h
  | cons b rest ih =>
    cases rest with
    | nil =>
      rw [List.mem_singleton] at h
      subst h
      exact mentions_self a
    | cons c rest' =>
      rw [List.mem_cons] at h
      show Mentions (b ++ sep ++ jsJoin sep (c :: rest')) a
      rcases h with rfl | h
      · rw [String.append_assoc]
        exact mentions_append_right _ _ _ (mentions_self a)
      · exact mentions_append_left _ _ _ (ih h)

/-- C6: on an authenticated request, `requireUserType(allowed)` calls `next`
exactly when the resolved role `req.userDetails.userType` is one of `allowed`;
otherwise it answers 403 with a message in which every allowed role occurs,
and does not call `next`. -/
theorem requireUserType_next_iff (allowed : List String) (req : Req) (details : User)
    (hauth : req.userDetails = .val details) :
    ((∃ req', requireUserType (.many allowed) req = .next req') ↔ details.userType ∈ allowed) ∧
    (details.userType ∈ allowed → requireUserType (.many allowed) req = .next req) ∧
    (details.userType ∉ allowed →
      ∃ text, requireUserType (.many allowed) req =
          .respond { status := 403, error := "Acceso denegado", message := .text text } ∧
        ∀ role ∈ allowed, Mentions text role) := by
  have hyes : details.userType ∈ allowed → requireUserType (.many allowed) req = .next req := by
    intro h
    simp [requireUserType, hauth, UserTypes.allowedTypes, h]
  have hno : details.userType ∉ allowed →
      requireUserType (.many allowed) req =
        .respond { status := 403, error := "Acceso denegado",
                   message := .text ("Esta acción requiere ser: " ++ jsJoin " o " allowed) } := by
    intro h
    simp [requireUserType, hauth, UserTypes.allowedTypes, h]
  refine ⟨⟨?_, fun h => ⟨req, hyes h⟩⟩, hyes, ?_⟩
  · rintro ⟨req', h⟩
    by_contra hmem
    rw [hno hmem] at h
    cases h
  · intro hmem
    refine ⟨_, hno hmem, ?_⟩
    intro role hrole
    exact mentions_append_left _ _ _ (mentions_jsJoin _ _ _ hrole)

/-- A witness for `requireUserType_next_iff`: with `allowed = ["WALKER"]` and
the role `OWNER`, the answer is 403 and its message names `WALKER`. -/
theorem requireUserType_next_iff_witness :
    requireUserType (.many ["WALKER"]) (ownerRequest [] (some [])) =
      .respond { status := 403, error := "Acceso denegado",
                 message := .text "Esta acción requiere ser: WALKER" } ∧
    ∃ text, requireUserType (.many ["WALKER"]) (ownerRequest [] (some [])) =
        .respond { status := 403, error := "Acceso denegado", message := .text text } ∧
      ∀ role ∈ ["WALKER"], Mentions text role :=
  ⟨by decide,
    (requireUserType_next_iff ["WALKER"] (ownerRequest [] (some [])) sampleOwner rfl).2.2
      (by decide)⟩

theorem strictEq_eq_true_iff (a b : JsVal) :
    a.strictEq b = true ↔ a = b ∧ a ≠ .object := by
  cases a <;> cases b <;> simp [JsVal.strictEq]

theorem truthy_of_not_falsy (v : JsVal) (h1 : v ≠ .undefined) (h2 : v ≠ .null)
    (h3 : v ≠ .bool false) (h4 : v ≠ .num 0) (h5 : v ≠ .str "") : v.truthy = true := by
  cases v with
  | undefined => exact absurd rfl h1
  | null => exact absurd rfl h2
  | bool b =>
    cases b
    · exact absurd rfl h3
    · rfl
  | num n =>
    have : n ≠ 0 := fun e => h4 (by rw [e])
    simp [JsVal.truthy, this]
  | str s =>
    have : s ≠ "" := fun e => h5 (by rw [e])
    simp [JsVal.truthy, this]
  | object => rfl

/-- C7: on an authenticated request, `requireOwnership(f)` takes the
identifier supplied under `f` from the path parameters when the value there is
truthy, and from the body when the path value is `undefined`, `null`, `false`,
`0` or the empty string. It calls `next` when the subject id
`req.user.userId` equals the identifier (a string or a number; an object is
never strictly equal to a value read from elsewhere), and answers 403 without
calling `next` when they differ. -/
theorem requireOwnership_decision (f : String) (req : Req) (claims : Claims)
    (hauth : req.user = .val claims) :
    (∀ supplied, req.params.get f = supplied →
      supplied ≠ .undefined → supplied ≠ .null → supplied ≠ .bool false →
      supplied ≠ .num 0 → supplied ≠ .str "" →
      (claims.userId = supplied → claims.userId ≠ .object →
        requireOwnership f req = .next req) ∧
      (claims.userId ≠ supplied →
        requireOwnership f req =
          .respond { status := 403, error := "Acceso denegado",
                     message := .text "No tienes permisos para acceder a este recurso" })) ∧
    (∀ body,
      (req.params.get f = .undefined ∨ req.params.get f = .null ∨
        req.params.get f = .bool false ∨ req.params.get f = .num 0 ∨
        req.params.get f = .str "") →
      req.body = some body →
      (claims.userId = body.get f → claims.userId ≠ .object →
        requireOwnership f req = .next req) ∧
      (claims.userId ≠ body.get f →
        requireOwnership f req =
          .respond { status := 403, error := "Acceso denegado",
                     message := .text "No tienes permisos para acceder a este recurso" })) := by
  have hyes : ∀ v, claims.userId = v → claims.userId ≠ .object →
      claims.userId.strictEq v = true :=
    fun v h1 h2 => (strictEq_eq_true_iff _ _).mpr ⟨h1, h2⟩
  have hno : ∀ v, claims.userId ≠ v → claims.userId.strictEq v = false := by
    intro v h
    cases hs : claims.userId.strictEq v with
    | false => rfl
    | true => exact absurd ((strictEq_eq_true_iff _ _).mp hs).1 h
  constructor
  · intro supplied hsupplied h1 h2 h3 h4 h5
    have hres : resourceUserId f req = some supplied := by
      unfold resourceUserId
      rw [hsupplied]
      have htruthy : supplied.truthy = true := truthy_of_not_falsy supplied h1 h2 h3 h4 h5
      simp [htruthy]
    constructor
    · intro heq hprim
      simp [requireOwnership, hauth, hres, hyes supplied heq hprim]
    · intro hne
      simp [requireOwnership, hauth, hres, hno supplied hne]
  · intro body hfalsy hbody
    have hres : resourceUserId f req = some (body.get f) := by
      unfold resourceUserId
      have htruthy : (req.params.get f).truthy = false := by
        rcases hfalsy with h | h | h | h | h <;> rw [h] <;> rfl
      simp [htruthy, hbody]
    constructor
    · intro heq hprim
      simp [requireOwnership, hauth, hres, hyes _ heq hprim]
    · intro hne
      simp [requireOwnership, hauth, hres, hno _ hne]

/-- A witness for `requireOwnership_decision`, with the subject `u3`: its own
id in the path, its own id in the body of a request without the path
parameter, the id of `u1` in such a body, and the field name `toString`, under
which the path parameters hold an inherited function. -/
theorem requireOwnership_decision_witness :
    requireOwnership "userId" (ownerRequest [("userId", .str "u3")] (some [])) =
      .next (ownerRequest [("userId", .str "u3")] (some [])) ∧
    requireOwnership "userId" (ownerRequest [] (some [("userId", .str "u3")])) =
      .next (ownerRequest [] (some [("userId", .str "u3")])) ∧
    requireOwnership "userId" (ownerRequest [] (some [("userId", .str "u1")])) =
      .respond { status := 403, error := "Acceso denegado",
                 message := .text "No tienes permisos para acceder a este recurso" } ∧
    requireOwnership "toString" (ownerRequest [] (some [("toString", .str "u3")])) =
      .respond { status := 403, error := "Acceso denegado",
                 message := .text "No tienes permisos para acceder a este recurso" } :=
  ⟨((requireOwnership_decision "userId" (ownerRequest [("userId", .str "u3")] (some []))
      { userId := .str "u3", iat := 1, exp := 3 } rfl).1 (.str "u3") (by decide)
      (by decide) (by decide) (by decide) (by decide) (by decide)).1 (by decide) (by decide),
   ((requireOwnership_decision "userId" (ownerRequest [] (some [("userId", .str "u3")]))
      { userId := .str "u3", iat := 1, exp := 3 } rfl).2 [("userId", .str "u3")]
      (Or.inl (by decide)) rfl).1 (by decide) (by decide),
   ((requireOwnership_decision "userId" (ownerRequest [] (some [("userId", .str "u1")]))
      { userId := .str "u3", iat := 1, exp := 3 } rfl).2 [("userId", .str "u1")]
      (Or.inl (by decide)) rfl).2 (by decide),
   ((requireOwnership_decision "toString" (ownerRequest [] (some [("toString", .str "u3")]))
      { userId := .str "u3", iat := 1, exp := 3 } rfl).1 .object (by decide)
      (by decide) (by decide) (by decide) (by decide) (by decide)).2 (by decide)⟩

/-! ## The rate limiter -/

theorem stored_ensure (requests : RequestMap) (key : ClientKey) :
    ((if (requests key).isNone then requests.set key [] else requests) key).getD [] =
      requests.stored key := by
  unfold RequestMap.stored
  cases h : requests key with
  | none => simp [RequestMap.set]
  | some l => simp [h]

theorem ensure_at (requests : RequestMap) (key : ClientKey) :
    (if (requests key).isNone then requests.set key [] else requests) key =
      some (requests.stored key) := by
  unfold RequestMap.stored
  cases h : requests key with
  | none => simp [RequestMap.set]
  | some l => simp [h]

theorem ensure_other (requests : RequestMap) (key other : ClientKey) (h : other ≠ key) :
    (if (requests key).isNone then requests.set key [] else requests) other = requests other := by
  split_ifs
  · simp [RequestMap.set, h]
  · rfl

/-- The body of `rateLimiter`, with the stored list named. -/
theorem rateLimiter_eq (maxRequests windowMs : Int) (requests : RequestMap) (now : Int)
    (req : Req) :
    rateLimiter maxRequests windowMs requests now req =
      if (((requests.stored (clientKey req)).filter
          (fun time => time > now - windowMs)).length : Int) ≥ maxRequests then
        (if (requests (clientKey req)).isNone then requests.set (clientKey req) [] else requests,
          .respond (limitResponse maxRequests windowMs))
      else
        ((if (requests (clientKey req)).isNone then requests.set (clientKey req) []
            else requests).set (clientKey req)
          ((requests.stored (clientKey req)).filter (fun time => time > now - windowMs) ++ [now]),
          .next req) := by
  simp only [rateLimiter, stored_ensure, limitResponse]

/-- A request is rejected when enough stored timestamps are later than
`now - windowMs`; the stored list stays as it is. -/
theorem rateLimiter_reject (maxRequests windowMs : Int) (requests : RequestMap) (now : Int)
    (req : Req)
    (h : (((requests.stored (clientKey req)).filter
      (fun time => time > now - windowMs)).length : Int) ≥ maxRequests) :
    (rateLimiter maxRequests windowMs requests now req).2 =
        .respond (limitResponse maxRequests windowMs) ∧
      (rateLimiter maxRequests windowMs requests now req).1 (clientKey req) =
        some (requests.stored (clientKey req)) ∧
      ∀ other, other ≠ clientKey req →
        (rateLimiter maxRequests windowMs requests now req).1 other = requests other := by
  rw [rateLimiter_eq, if_pos h]
  refine ⟨rfl, ensure_at requests _, ?_⟩
  intro other hother
  exact ensure_other requests _ other hother

/-- A request is allowed otherwise; the timestamps later than `now - windowMs`
are kept and `now` is added after them. -/
theorem rateLimiter_allow (maxRequests windowMs : Int) (requests : RequestMap) (now : Int)
    (req : Req)
    (h : ¬ (((requests.stored (clientKey req)).filter
      (fun time => time > now - windowMs)).length : Int) ≥ maxRequests) :
    (rateLimiter maxRequests windowMs requests now req).2 = .next req ∧
      (rateLimiter maxRequests windowMs requests now req).1 (clientKey req) =
        some ((requests.stored (clientKey req)).filter (fun time => time > now - windowMs)
          ++ [now]) ∧
      ∀ other, other ≠ clientKey req →
        (rateLimiter maxRequests windowMs requests now req).1 other = requests other := by
  rw [rateLimiter_eq, if_neg h]
  refine ⟨rfl, ?_, ?_⟩
  · simp [RequestMap.set]
  · intro other hother
    simp only [RequestMap.set, hother, if_false]
    exact ensure_other requests _ other hother

/-- C8, as the code has it: `rateLimiter` rejects the request with 429 exactly
when the number of timestamps stored for the key that are later than
`now - windowMs` is at least `maxRequests`, and then leaves the stored list as
it is; otherwise it allows the request and stores those later timestamps
followed by `now`. A timestamp equal to `now - windowMs` does not count, and
there is no upper bound at `now`. -/
theorem rateLimiter_rejects_iff (maxRequests windowMs : Int) (requests : RequestMap) (now : Int)
    (req : Req) :
    ((rateLimiter maxRequests windowMs requests now req).2 =
        .respond (limitResponse maxRequests windowMs) ↔
      (((requests.stored (clientKey req)).filter
        (fun time => time > now - windowMs)).length : Int) ≥ maxRequests) ∧
    ((∃ res, (rateLimiter maxRequests windowMs requests now req).2 = .respond res) →
      (rateLimiter maxRequests windowMs requests now req).1 (clientKey req) =
        some (requests.stored (clientKey req))) ∧
    ((∀ res, (rateLimiter maxRequests windowMs requests now req).2 ≠ .respond res) →
      (rateLimiter maxRequests windowMs requests now req).2 = .next req ∧
      (rateLimiter maxRequests windowMs requests now req).1 (clientKey req) =
        some ((requests.stored (clientKey req)).filter (fun time => time > now - windowMs)
          ++ [now])) := by
  by_cases h : (((requests.stored (clientKey req)).filter
      (fun time => time > now - windowMs)).length : Int) ≥ maxRequests
  · obtain ⟨h1, h2, -⟩ := rateLimiter_reject maxRequests windowMs requests now req h
    refine ⟨⟨fun _ => h, fun _ => h1⟩, fun _ => h2, ?_⟩
    intro hno
    exact absurd h1 (hno _)
  · obtain ⟨h1, h2, -⟩ := rateLimiter_allow maxRequests windowMs requests now req h
    refine ⟨⟨?_, fun h' => absurd h' h⟩, ?_, fun _ => ⟨h1, h2⟩⟩
    · intro h'
      rw [h1] at h'
      cases h'
    · rintro ⟨res, hres⟩
      rw [h1] at hres
      cases hres

/-- C8, as stated, fails at the edge of the window: with `maxRequests = 1` and
a window of 1000 ms, after one allowed request at time 0 the stored timestamp
0 lies in the closed interval from `1000 - 1000` to 1000, so the count of the
claim is 1, yet the request at time 1000 is allowed. -/
theorem rateLimiter_allows_at_window_edge :
    (rateLimiterRun 1 1000 RequestMap.empty [(0, clientRequest "10.0.0.1")]).1
        (some "10.0.0.1") = some [0] ∧
    storedInClosedWindow
        (rateLimiterRun 1 1000 RequestMap.empty [(0, clientRequest "10.0.0.1")]).1
        (clientKey (clientRequest "10.0.0.1")) 1000 1000 ≥ 1 ∧
    (rateLimiter 1 1000
        (rateLimiterRun 1 1000 RequestMap.empty [(0, clientRequest "10.0.0.1")]).1
        1000 (clientRequest "10.0.0.1")).2 = .next (clientRequest "10.0.0.1") := by
  decide

theorem rateLimiterRun_cons (maxRequests windowMs : Int) (requests : RequestMap) (now : Int)
    (req : Req) (rest : List (Int × Req)) :
    rateLimiterRun maxRequests windowMs requests ((now, req) :: rest) =
      ((rateLimiterRun maxRequests windowMs
          (rateLimiter maxRequests windowMs requests now req).1 rest).1,
        (rateLimiter maxRequests windowMs requests now req).2 ::
          (rateLimiterRun maxRequests windowMs
            (rateLimiter maxRequests windowMs requests now req).1 rest).2) := rfl

/-- A request from another client leaves the list stored for a key as it is. -/
theorem rateLimiter_stored_other (maxRequests windowMs : Int) (requests : RequestMap) (now : Int)
    (req : Req) (key : ClientKey) (h : clientKey req ≠ key) :
    (rateLimiter maxRequests windowMs requests now req).1.stored key = requests.stored key := by
  unfold RequestMap.stored
  by_cases hc : (((requests.stored (clientKey req)).filter
      (fun time => time > now - windowMs)).length : Int) ≥ maxRequests
  · rw [(rateLimiter_reject maxRequests windowMs requests now req hc).2.2 key (Ne.symm h)]
  · rw [(rateLimiter_allow maxRequests windowMs requests now req hc).2.2 key (Ne.symm h)]

/-- The list stored for the key of a request after the request is handled:
unchanged after a rejection, the later timestamps followed by `now` after an
allowed request. -/
theorem rateLimiter_stored_self (maxRequests windowMs : Int) (requests : RequestMap) (now : Int)
    (req : Req) :
    ((∃ res, (rateLimiter maxRequests windowMs requests now req).2 = .respond res) ∧
      (((requests.stored (clientKey req)).filter
        (fun time => time > now - windowMs)).length : Int) ≥ maxRequests ∧
      (rateLimiter maxRequests windowMs requests now req).1.stored (clientKey req) =
        requests.stored (clientKey req)) ∨
    ((rateLimiter maxRequests windowMs requests now req).2 = .next req ∧
      (((requests.stored (clientKey req)).filter
        (fun time => time > now - windowMs)).length : Int) < maxRequests ∧
      (rateLimiter maxRequests windowMs requests now req).1.stored (clientKey req) =
        (requests.stored (clientKey req)).filter (fun time => time > now - windowMs) ++ [now]) := by
  by_cases hc : (((requests.stored (clientKey req)).filter
      (fun time => time > now - windowMs)).length : Int) ≥ maxRequests
  · left
    obtain ⟨hout, hst, -⟩ := rateLimiter_reject maxRequests windowMs requests now req hc
    refine ⟨⟨_, hout⟩, hc, ?_⟩
    show ((rateLimiter maxRequests windowMs requests now req).1 (clientKey req)).getD [] = _
    rw [hst]
    rfl
  · right
    obtain ⟨hout, hst, -⟩ := rateLimiter_allow maxRequests windowMs requests now req hc
    refine ⟨hout, not_le.mp hc, ?_⟩
    show ((rateLimiter maxRequests windowMs requests now req).1 (clientKey req)).getD [] = _
    rw [hst]
    rfl

/-- From a state that stores `c` timestamps for a key, the next `n - c`
requests of that key are allowed, whatever their clock readings are: request
number `i` of the key meets at most `c + i` stored timestamps. -/
theorem rateLimiterRun_first_allowed (n : Nat) (windowMs : Int) (key : ClientKey)
    (events : List (Int × Req)) :
    ∀ (requests : RequestMap) (i : Nat),
      (requests.stored key).length + i < n → i < (timesFor key events).length →
      ∃ req, (outcomesFor key events (rateLimiterRun n windowMs requests events).2)[i]? =
        some (.next req) := by
  induction events with
  | nil =>
    intro requests i _ hi
    simp [timesFor] at hi
  | cons e rest ih =>
    obtain ⟨now, req⟩ := e
    intro requests i hcount hi
    rw [rateLimiterRun_cons]
    by_cases hkey : clientKey req = key
    · have htimes : timesFor key ((now, req) :: rest) = now :: timesFor key rest := by
        simp [timesFor, hkey]
      rw [htimes, List.length_cons] at hi
      have hfilter := List.length_filter_le (fun time => decide (time > now - windowMs))
        (requests.stored (clientKey req))
      rw [hkey] at hfilter
      rcases rateLimiter_stored_self n windowMs requests now req with
        ⟨-, hge, -⟩ | ⟨hout, -, hst⟩
      · rw [hkey] at hge
        have : (n : Int) ≤ ((requests.stored key).length : Int) :=
          le_trans hge (by exact_mod_cast hfilter)
        omega
      · simp only [outcomesFor, hkey, if_true]
        rw [hout]
        cases i with
        | zero => exact ⟨req, by simp⟩
        | succ j =>
          simp only [List.getElem?_cons_succ]
          apply ih _ j
          · rw [hkey] at hst
            rw [hst, List.length_append, List.length_singleton]
            omega
          · omega
    · have htimes : timesFor key ((now, req) :: rest) = timesFor key rest := by
        simp [timesFor, hkey]
      simp only [outcomesFor, hkey, if_false]
      apply ih _ i
      · rw [rateLimiter_stored_other n windowMs requests now req key hkey]
        exact hcount
      · rw [htimes] at hi
        exact hi

/-- While the stored timestamps of a key and the clock readings of its next
`m` requests are all less than one window away from one another, nothing is
pruned: request number `i < m` of the key is rejected once `n` timestamps are
stored by then. -/
theorem rateLimiterRun_reject_within_window (n : Nat) (windowMs : Int) (key : ClientKey)
    (events : List (Int × Req)) :
    ∀ (requests : RequestMap) (m i : Nat),
      (∀ a ∈ requests.stored key ++ (timesFor key events).take m,
        ∀ b ∈ requests.stored key ++ (timesFor key events).take m, b - a < windowMs) →
      i < m → n ≤ (requests.stored key).length + i → i < (timesFor key events).length →
      (outcomesFor key events (rateLimiterRun n windowMs requests events).2)[i]? =
        some (.respond (limitResponse n windowMs)) := by
  induction events with
  | nil =>
    intro requests m i _ _ _ hi
    simp [timesFor] at hi
  | cons e rest ih =>
    obtain ⟨now, req⟩ := e
    intro requests m i hclose him hcount hi
    rw [rateLimiterRun_cons]
    by_cases hkey : clientKey req = key
    · have htimes : timesFor key ((now, req) :: rest) = now :: timesFor key rest := by
        simp [timesFor, hkey]
      obtain ⟨m', rfl⟩ : ∃ m', m = m' + 1 := ⟨m - 1, by omega⟩
      rw [htimes, List.take_succ_cons] at hclose
      rw [htimes, List.length_cons] at hi
      have hrecent : (requests.stored (clientKey req)).filter (fun time => time > now - windowMs)
          = requests.stored key := by
        rw [hkey, List.filter_eq_self]
        intro t ht
        have := hclose t (List.mem_append_left _ ht) now
          (List.mem_append_right _ (List.mem_cons_self _ _))
        simp only [gt_iff_lt, decide_eq_true_eq]
        omega
      simp only [outcomesFor, hkey, if_true]
      rcases rateLimiter_stored_self n windowMs requests now req with
        ⟨⟨res, hres⟩, hge, hst⟩ | ⟨hout, hlt, hst⟩
      · have hout : (rateLimiter n windowMs requests now req).2 =
            .respond (limitResponse n windowMs) :=
          (rateLimiter_reject n windowMs requests now req hge).1
        rw [hrecent] at hge
        rw [hkey] at hst
        rw [hout]
        cases i with
        | zero => simp
        | succ j =>
          simp only [List.getElem?_cons_succ]
          apply ih _ m' j
          · rw [hst]
            intro a ha b hb
            apply hclose
            · simp only [List.mem_append, List.mem_cons] at ha ⊢; tauto
            · simp only [List.mem_append, List.mem_cons] at hb ⊢; tauto
          · omega
          · rw [hst]
            have : (n : Int) ≤ ((requests.stored key).length : Int) := hge
            omega
          · omega
      · rw [hrecent] at hlt hst
        rw [hkey] at hst
        rw [hout]
        cases i with
        | zero =>
          have : ((requests.stored key).length : Int) < (n : Int) := hlt
          omega
        | succ j =>
          simp only [List.getElem?_cons_succ]
          apply ih _ m' j
          · rw [hst]
            intro a ha b hb
            apply hclose
            · simp only [List.mem_append, List.mem_cons, List.mem_singleton] at ha ⊢; tauto
            · simp only [List.mem_append, List.mem_cons, List.mem_singleton] at hb ⊢; tauto
          · omega
          · rw [hst, List.length_append, List.length_singleton]
            omega
          · omega
    · have htimes : timesFor key ((now, req) :: rest) = timesFor key rest := by
        simp [timesFor, hkey]
      simp only [outcomesFor, hkey, if_false]
      rw [htimes] at hclose hi
      apply ih _ m i
      · rw [rateLimiter_stored_other n windowMs requests now req key hkey]
        exact hclose
      · exact him
      · rw [rateLimiter_stored_other n windowMs requests now req key hkey]
        exact hcount
      · exact hi

/-- C9: on a fresh limiter with `maxRequests = n` and a window `w`, the first
`n` requests of a client are all allowed, however they are spread in time and
whatever other clients send in between; and when the first `n + 1` requests of
the client come at non-decreasing times and request number `n + 1` arrives
less than `w` after the first, that request is rejected with 429. -/
theorem rateLimiter_first_n_then_reject (n : Nat) (w : Int) (key : ClientKey)
    (events : List (Int × Req)) :
    (∀ i, i < n → i < (timesFor key events).length →
      ∃ req, (outcomesFor key events (rateLimiterRun n w RequestMap.empty events).2)[i]? =
        some (.next req)) ∧
    (∀ first last, (timesFor key events)[0]? = some first →
      (timesFor key events)[n]? = some last →
      List.Pairwise (fun a b => a ≤ b) ((timesFor key events).take (n + 1)) →
      last - first < w →
      (outcomesFor key events (rateLimiterRun n w RequestMap.empty events).2)[n]? =
        some (.respond (limitResponse n w))) := by
  have hnil : RequestMap.empty.stored key = [] := rfl
  constructor
  · intro i hi hlen
    apply rateLimiterRun_first_allowed n w key events RequestMap.empty i
    · rw [hnil]
      simpa using hi
    · exact hlen
  · intro first last hfirst hlast hmono hwindow
    obtain ⟨hlen, -⟩ := List.getElem?_eq_some.mp hlast
    have hlo : ∀ x ∈ (timesFor key events).take (n + 1), first ≤ x := by
      cases htl : timesFor key events with
      | nil => simp [htl] at hlen
      | cons t tl =>
        rw [htl] at hfirst hmono
        simp only [List.getElem?_cons_zero, Option.some.injEq] at hfirst
        subst hfirst
        rw [List.take_succ_cons, List.pairwise_cons] at hmono
        intro x hx
        rw [List.take_succ_cons, List.mem_cons] at hx
        rcases hx with rfl | hx
        · exact le_refl _
        · exact hmono.1 x hx
    have hhi : ∀ x ∈ (timesFor key events).take (n + 1), x ≤ last := by
      rw [List.take_succ, hlast] at hmono ⊢
      simp only [Option.toList_some] at hmono ⊢
      rw [List.pairwise_append] at hmono
      intro x hx
      rcases List.mem_append.mp hx with hx | hx
      · exact hmono.2.2 x hx last (List.mem_singleton_self _)
      · rw [List.mem_singleton] at hx
        rw [hx]
    apply rateLimiterRun_reject_within_window n w key events RequestMap.empty (n + 1) n
    · rw [hnil, List.nil_append]
      intro a ha b hb
      have h1 := hlo a ha
      have h2 := hhi b hb
      omega
    · omega
    · rw [hnil]
      simp
    · exact hlen

/-- A witness for `rateLimiter_first_n_then_reject`, with `n = 3` and a window
of 1000 ms. One client asks at 0, 100, 200 and 999 ms while another asks at
150 ms: its fourth request is rejected. A client asking at 0, 5000 and
10000 ms is allowed each time. -/
theorem rateLimiter_first_n_then_reject_witness :
    (rateLimiterRun 3 1000 RequestMap.empty
        [(0, clientRequest "10.0.0.1"), (100, clientRequest "10.0.0.1"),
          (150, clientRequest "10.0.0.2"), (200, clientRequest "10.0.0.1"),
          (999, clientRequest "10.0.0.1")]).2 =
      [.next (clientRequest "10.0.0.1"), .next (clientRequest "10.0.0.1"),
        .next (clientRequest "10.0.0.2"), .next (clientRequest "10.0.0.1"),
        .respond (limitResponse 3 1000)] ∧
    (outcomesFor (some "10.0.0.1")
        [(0, clientRequest "10.0.0.1"), (100, clientRequest "10.0.0.1"),
          (150, clientRequest "10.0.0.2"), (200, clientRequest "10.0.0.1"),
          (999, clientRequest "10.0.0.1")]
        (rateLimiterRun (3 : Nat) 1000 RequestMap.empty
          [(0, clientRequest "10.0.0.1"), (100, clientRequest "10.0.0.1"),
            (150, clientRequest "10.0.0.2"), (200, clientRequest "10.0.0.1"),
            (999, clientRequest "10.0.0.1")]).2)[3]? =
      some (.respond (limitResponse (3 : Nat) 1000)) ∧
    (rateLimiterRun 3 1000 RequestMap.empty
        [(0, clientRequest "10.0.0.1"), (5000, clientRequest "10.0.0.1"),
          (10000, clientRequest "10.0.0.1")]).2 =
      [.next (clientRequest "10.0.0.1"), .next (clientRequest "10.0.0.1"),
        .next (clientRequest "10.0.0.1")] ∧
    (∃ req, (outcomesFor (some "10.0.0.1")
        [(0, clientRequest "10.0.0.1"), (5000, clientRequest "10.0.0.1"),
          (10000, clientRequest "10.0.0.1")]
        (rateLimiterRun (3 : Nat) 1000 RequestMap.empty
          [(0, clientRequest "10.0.0.1"), (5000, clientRequest "10.0.0.1"),
            (10000, clientRequest "10.0.0.1")]).2)[2]? = some (.next req)) :=
  ⟨by decide,
    (rateLimiter_first_n_then_reject 3 1000 (some "10.0.0.1")
      [(0, clientRequest "10.0.0.1"), (100, clientRequest "10.0.0.1"),
        (150, clientRequest "10.0.0.2"), (200, clientRequest "10.0.0.1"),
        (999, clientRequest "10.0.0.1")]).2 0 999 (by decide) (by decide) (by decide)
      (by decide),
    by decide,
    (rateLimiter_first_n_then_reject 3 1000 (some "10.0.0.1")
      [(0, clientRequest "10.0.0.1"), (5000, clientRequest "10.0.0.1"),
        (10000, clientRequest "10.0.0.1")]).1 2 (by decide) (by decide)⟩

theorem allowedTimes_cons_subset (key : ClientKey) (e : Int × Req) (rest : List (Int × Req))
    (out : Outcome) (outs : List Outcome) (t : Int) (h : t ∈ allowedTimes key rest outs) :
    t ∈ allowedTimes key (e :: rest) (out :: outs) := by
  obtain ⟨now, req⟩ := e
  cases out with
  | next r =>
    by_cases hk : clientKey req = key
    · simp only [allowedTimes, hk, if_true]
      exact List.mem_cons_of_mem _ h
    · simp only [allowedTimes, hk, if_false]
      exact h
  | respond r => exact h

/-- Every timestamp stored for a key was stored before the run or is the clock
reading of a request of that key that the run allowed. -/
theorem stored_subset_allowedTimes (maxRequests windowMs : Int) (key : ClientKey)
    (events : List (Int × Req)) :
    ∀ requests : RequestMap,
      ∀ t ∈ (rateLimiterRun maxRequests windowMs requests events).1.stored key,
        t ∈ requests.stored key ∨
          t ∈ allowedTimes key events (rateLimiterRun maxRequests windowMs requests events).2 := by
  induction events with
  | nil =>
    intro requests t ht
    exact Or.inl ht
  | cons e rest ih =>
    obtain ⟨now, req⟩ := e
    intro requests t ht
    rw [rateLimiterRun_cons] at ht ⊢
    rcases ih _ t ht with hstep | hrest
    · by_cases hkey : clientKey req = key
      · by_cases hc : (((requests.stored (clientKey req)).filter
            (fun time => time > now - windowMs)).length : Int) ≥ maxRequests
        · obtain ⟨-, hst, -⟩ := rateLimiter_reject maxRequests windowMs requests now req hc
          left
          unfold RequestMap.stored at hstep
          rw [← hkey, hst, Option.getD_some, hkey] at hstep
          exact hstep
        · obtain ⟨hout, hst, -⟩ := rateLimiter_allow maxRequests windowMs requests now req hc
          unfold RequestMap.stored at hstep
          rw [← hkey, hst, Option.getD_some, hkey, List.mem_append] at hstep
          rcases hstep with hold | hnew
          · left
            exact (List.mem_filter.mp hold).1
          · right
            rw [List.mem_singleton] at hnew
            rw [hout]
            simp only [allowedTimes, hkey, if_true, hnew]
            exact List.mem_cons_self _ _
      · left
        rw [rateLimiter_stored_other maxRequests windowMs requests now req key hkey] at hstep
        exact hstep
    · right
      exact allowedTimes_cons_subset key _ rest _ _ t hrest

/-- C10: in every state that a limiter with `maxRequests >= 1` reaches from a
fresh map, a request of a client at time `now` is allowed whenever every
earlier allowed request of that client happened at or before
`now - windowMs`, however many of its requests were rejected in between. -/
theorem rateLimiter_allows_after_window (maxRequests windowMs : Int)
    (events : List (Int × Req)) (now : Int) (req : Req)
    (hmax : 1 ≤ maxRequests)
    (hold : ∀ t ∈ allowedTimes (clientKey req) events
      (rateLimiterRun maxRequests windowMs RequestMap.empty events).2, t ≤ now - windowMs) :
    (rateLimiter maxRequests windowMs
      (rateLimiterRun maxRequests windowMs RequestMap.empty events).1 now req).2 = .next req := by
  have hnone : ((rateLimiterRun maxRequests windowMs RequestMap.empty events).1.stored
      (clientKey req)).filter (fun time => time > now - windowMs) = [] := by
    rw [List.filter_eq_nil_iff]
    intro t ht
    rcases stored_subset_allowedTimes maxRequests windowMs (clientKey req) events
      RequestMap.empty t ht with h | h
    · cases h
    · have := hold t h
      simp only [gt_iff_lt, decide_eq_true_eq]
      omega
  apply (rateLimiter_allow maxRequests windowMs _ now req _).1
  rw [hnone]
  simp only [List.length_nil, Nat.cast_zero]
  omega

/-- A witness for `rateLimiter_allows_after_window`: `maxRequests = 3` and a
window of 1000 ms; a client is allowed at 0, 100 and 200 ms, rejected at 300,
700 and 999 ms, and asks again at 1200 ms. -/
theorem rateLimiter_allows_after_window_witness :
    (rateLimiterRun 3 1000 RequestMap.empty
        [(0, clientRequest "10.0.0.1"), (100, clientRequest "10.0.0.1"),
          (200, clientRequest "10.0.0.1"), (300, clientRequest "10.0.0.1"),
          (700, clientRequest "10.0.0.1"), (999, clientRequest "10.0.0.1")]).2 =
      [.next (clientRequest "10.0.0.1"), .next (clientRequest "10.0.0.1"),
        .next (clientRequest "10.0.0.1"), .respond (limitResponse 3 1000),
        .respond (limitResponse 3 1000), .respond (limitResponse 3 1000)] ∧
    (rateLimiter 3 1000
      (rateLimiterRun 3 1000 RequestMap.empty
        [(0, clientRequest "10.0.0.1"), (100, clientRequest "10.0.0.1"),
          (200, clientRequest "10.0.0.1"), (300, clientRequest "10.0.0.1"),
          (700, clientRequest "10.0.0.1"), (999, clientRequest "10.0.0.1")]).1
      1200 (clientRequest "10.0.0.1")).2 = .next (clientRequest "10.0.0.1") :=
  ⟨by decide,
    rateLimiter_allows_after_window 3 1000
      [(0, clientRequest "10.0.0.1"), (100, clientRequest "10.0.0.1"),
        (200, clientRequest "10.0.0.1"), (300, clientRequest "10.0.0.1"),
        (700, clientRequest "10.0.0.1"), (999, clientRequest "10.0.0.1")]
      1200 (clientRequest "10.0.0.1") (by decide) (by decide)⟩

/-! ## What the rate limiter stores -/

theorem storedBounded_empty (maxRequests : Int) : StoredBounded maxRequests RequestMap.empty :=
  fun _ => Or.inl rfl

theorem storedBounded_step (maxRequests windowMs : Int) (requests : RequestMap) (now : Int)
    (req : Req) (h : StoredBounded maxRequests requests) :
    StoredBounded maxRequests (rateLimiter maxRequests windowMs requests now req).1 := by
  intro key
  by_cases hkey : clientKey req = key
  · subst hkey
    rcases rateLimiter_stored_self maxRequests windowMs requests now req with
      ⟨-, -, hst⟩ | ⟨-, hlt, hst⟩
    · rw [hst]
      exact h _
    · right
      rw [hst, List.length_append, List.length_singleton]
      push_cast
      omega
  · rw [rateLimiter_stored_other maxRequests windowMs requests now req key hkey]
    exact h key

theorem storedBounded_run (maxRequests windowMs : Int) (events : List (Int × Req)) :
    ∀ requests : RequestMap, StoredBounded maxRequests requests →
      StoredBounded maxRequests (rateLimiterRun maxRequests windowMs requests events).1 := by
  induction events with
  | nil => exact fun _ h => h
  | cons e rest ih =>
    obtain ⟨now, req⟩ := e
    intro requests h
    rw [rateLimiterRun_cons]
    exact ih _ (storedBounded_step maxRequests windowMs requests now req h)

theorem allowedTimes_subset_times (key : ClientKey) (events : List (Int × Req)) :
    ∀ (outs : List Outcome) (t : Int), t ∈ allowedTimes key events outs →
      t ∈ events.map (fun e => e.1) := by
  induction events with
  | nil =>
    intro outs t h
    cases outs <;> simp [allowedTimes] at h
  | cons e rest ih =>
    obtain ⟨now, req⟩ := e
    intro outs t h
    cases outs with
    | nil => simp [allowedTimes] at h
    | cons out outs =>
      cases out with
      | next r =>
        by_cases hk : clientKey req = key
        · simp only [allowedTimes, hk, if_true, List.mem_cons] at h
          rcases h with rfl | h
          · simp
          · exact List.mem_cons_of_mem _ (ih outs t h)
        · simp only [allowedTimes, hk, if_false] at h
          exact List.mem_cons_of_mem _ (ih outs t h)
      | respond r =>
        simp only [allowedTimes] at h
        exact List.mem_cons_of_mem _ (ih outs t h)

/-- C11, as the code has it: for a window `windowMs > 0`, under a
non-decreasing clock and in every state reached from a fresh limiter, right
after `rateLimiter` handles a request of a key at time `now`, every timestamp
stored for that key is later than `now - windowMs` and not later than `now`,
whether the request was allowed or rejected. -/
theorem rateLimiter_stored_in_window (maxRequests windowMs : Int) (events : List (Int × Req))
    (now : Int) (req : Req)
    (hwindow : 0 < windowMs)
    (hclock : List.Pairwise (fun a b => a ≤ b) (events.map (fun e => e.1) ++ [now])) :
    ∀ t ∈ (rateLimiter maxRequests windowMs
        (rateLimiterRun maxRequests windowMs RequestMap.empty events).1 now req).1.stored
        (clientKey req),
      now - windowMs < t ∧ t ≤ now := by
  have hbound := storedBounded_run maxRequests windowMs events RequestMap.empty
    (storedBounded_empty maxRequests) (clientKey req)
  have hpast : ∀ t ∈ (rateLimiterRun maxRequests windowMs RequestMap.empty events).1.stored
      (clientKey req), t ≤ now := by
    intro t ht
    rcases stored_subset_allowedTimes maxRequests windowMs (clientKey req) events
      RequestMap.empty t ht with h | h
    · cases h
    · have hmem := allowedTimes_subset_times _ _ _ _ h
      rw [List.pairwise_append] at hclock
      exact hclock.2.2 t hmem now (by simp)
  intro t ht
  rcases rateLimiter_stored_self maxRequests windowMs
    (rateLimiterRun maxRequests windowMs RequestMap.empty events).1 now req with
    ⟨-, hge, hst⟩ | ⟨-, -, hst⟩
  · rw [hst] at ht
    refine ⟨?_, hpast t ht⟩
    rcases hbound with hnil | hle
    · rw [hnil] at ht
      cases ht
    · have hlen := List.length_filter_le (fun time => decide (time > now - windowMs))
        ((rateLimiterRun maxRequests windowMs RequestMap.empty events).1.stored (clientKey req))
      have hall := (List.filter_length_eq_length).mp (le_antisymm hlen (by omega)) t ht
      simpa using hall
  · rw [hst, List.mem_append, List.mem_singleton] at ht
    rcases ht with ht | rfl
    · have := List.mem_filter.mp ht
      refine ⟨by simpa using this.2, hpast t this.1⟩
    · constructor <;> omega

/-- A witness for `rateLimiter_stored_in_window`: `maxRequests = 2` and a
window of 1000 ms; after requests at 0, 900 and 950 ms the request at 1000 ms
leaves 900 and 1000 stored. -/
theorem rateLimiter_stored_in_window_witness :
    (rateLimiter 2 1000
      (rateLimiterRun 2 1000 RequestMap.empty
        [(0, clientRequest "10.0.0.1"), (900, clientRequest "10.0.0.1"),
          (950, clientRequest "10.0.0.1")]).1 1000 (clientRequest "10.0.0.1")).1.stored
        (some "10.0.0.1") = [900, 1000] ∧
    ∀ t ∈ (rateLimiter 2 1000
        (rateLimiterRun 2 1000 RequestMap.empty
          [(0, clientRequest "10.0.0.1"), (900, clientRequest "10.0.0.1"),
            (950, clientRequest "10.0.0.1")]).1 1000 (clientRequest "10.0.0.1")).1.stored
        (clientKey (clientRequest "10.0.0.1")),
      1000 - 1000 < t ∧ t ≤ 1000 :=
  ⟨by decide,
    rateLimiter_stored_in_window 2 1000
      [(0, clientRequest "10.0.0.1"), (900, clientRequest "10.0.0.1"),
        (950, clientRequest "10.0.0.1")] 1000 (clientRequest "10.0.0.1")
      (by decide) (by decide)⟩

/-- C11, as stated, fails for a window of 0 ms: a fresh limiter with
`maxRequests = 1` allows the request at time 5 and stores 5, which is not later
than `5 - 0`. -/
theorem rateLimiter_zero_window_stores_now :
    (rateLimiter 1 0 RequestMap.empty 5 (clientRequest "10.0.0.1")).2 =
      .next (clientRequest "10.0.0.1") ∧
    (rateLimiter 1 0 RequestMap.empty 5 (clientRequest "10.0.0.1")).1.stored
      (clientKey (clientRequest "10.0.0.1")) = [5] ∧
    ¬ ∀ t ∈ (rateLimiter 1 0 RequestMap.empty 5 (clientRequest "10.0.0.1")).1.stored
        (clientKey (clientRequest "10.0.0.1")),
      (5 : Int) - 0 < t ∧ t ≤ 5 := by
  decide

/-- The outcome of `rateLimiter`, by the stored list of the request's key. -/
theorem rateLimiter_outcome (maxRequests windowMs : Int) (requests : RequestMap) (now : Int)
    (req : Req) :
    (rateLimiter maxRequests windowMs requests now req).2 =
      if (((requests.stored (clientKey req)).filter
          (fun time => time > now - windowMs)).length : Int) ≥ maxRequests then
        .respond (limitResponse maxRequests windowMs)
      else .next req := by
  rw [rateLimiter_eq]
  split_ifs <;> rfl

/-- What `rateLimiter` does with a request depends on the map only through
the list stored for the key of the request. -/
theorem rateLimiter_congr (maxRequests windowMs : Int) (first second : RequestMap) (now : Int)
    (req : Req) (h : first.stored (clientKey req) = second.stored (clientKey req)) :
    (rateLimiter maxRequests windowMs first now req).2 =
        (rateLimiter maxRequests windowMs second now req).2 ∧
      (rateLimiter maxRequests windowMs first now req).1.stored (clientKey req) =
        (rateLimiter maxRequests windowMs second now req).1.stored (clientKey req) := by
  constructor
  · rw [rateLimiter_outcome, rateLimiter_outcome, h]
  · rcases rateLimiter_stored_self maxRequests windowMs first now req with
      ⟨-, hc1, h1⟩ | ⟨-, hc1, h1⟩ <;>
    rcases rateLimiter_stored_self maxRequests windowMs second now req with
      ⟨-, hc2, h2⟩ | ⟨-, hc2, h2⟩
    · rw [h1, h2, h]
    · rw [h] at hc1
      omega
    · rw [h] at hc1
      omega
    · rw [h1, h2, h]

/-- The requests of other clients can be left out: the outcomes for the
requests of one key, and the list stored for it, are those of a run with the
requests of that key only. -/
theorem rateLimiterRun_project (maxRequests windowMs : Int) (key : ClientKey)
    (events : List (Int × Req)) :
    ∀ first second : RequestMap, first.stored key = second.stored key →
      outcomesFor key events (rateLimiterRun maxRequests windowMs first events).2 =
          (rateLimiterRun maxRequests windowMs second
            (events.filter (fun e => clientKey e.2 = key))).2 ∧
        (rateLimiterRun maxRequests windowMs first events).1.stored key =
          (rateLimiterRun maxRequests windowMs second
            (events.filter (fun e => clientKey e.2 = key))).1.stored key := by
  induction events with
  | nil =>
    intro first second h
    exact ⟨rfl, h⟩
  | cons e rest ih =>
    obtain ⟨now, req⟩ := e
    intro first second h
    by_cases hkey : clientKey req = key
    · have hfilter : ((now, req) :: rest).filter (fun e => clientKey e.2 = key) =
          (now, req) :: rest.filter (fun e => clientKey e.2 = key) := by
        simp [hkey]
      rw [hfilter, rateLimiterRun_cons, rateLimiterRun_cons]
      have h' : first.stored (clientKey req) = second.stored (clientKey req) := by
        rw [hkey]; exact h
      obtain ⟨hout, hst⟩ := rateLimiter_congr maxRequests windowMs first second now req h'
      rw [hkey] at hst
      obtain ⟨ih1, ih2⟩ := ih _ _ hst
      simp only [outcomesFor, hkey, if_true]
      exact ⟨by rw [hout, ih1], ih2⟩
    · have hfilter : ((now, req) :: rest).filter (fun e => clientKey e.2 = key) =
          rest.filter (fun e => clientKey e.2 = key) := by
        simp [hkey]
      rw [hfilter, rateLimiterRun_cons]
      have hst : (rateLimiter maxRequests windowMs first now req).1.stored key =
          second.stored key := by
        rw [rateLimiter_stored_other maxRequests windowMs first now req key hkey]
        exact h
      obtain ⟨ih1, ih2⟩ := ih _ _ hst
      simp only [outcomesFor, hkey, if_false]
      exact ⟨ih1, ih2⟩

/-- C12: for distinct client keys `a` and `b`, handling a request of `a`
leaves the entry stored for `b` as it is, so the outcome of a request of `b`
is the same with and without the request of `a` before it; over a whole run,
the outcomes for the requests of `b` are those of a run in which only `b`
sends requests. -/
theorem rateLimiter_keys_independent (maxRequests windowMs : Int) (requests : RequestMap)
    (a b : ClientKey) (nowA : Int) (reqA : Req)
    (hdistinct : a ≠ b) (hfrom : clientKey reqA = a) :
    (rateLimiter maxRequests windowMs requests nowA reqA).1 b = requests b ∧
    (∀ nowB reqB, clientKey reqB = b →
      (rateLimiter maxRequests windowMs
          (rateLimiter maxRequests windowMs requests nowA reqA).1 nowB reqB).2 =
        (rateLimiter maxRequests windowMs requests nowB reqB).2) ∧
    (∀ events : List (Int × Req),
      outcomesFor b events (rateLimiterRun maxRequests windowMs requests events).2 =
        (rateLimiterRun maxRequests windowMs requests
          (events.filter (fun e => clientKey e.2 = b))).2) := by
  have hne : b ≠ clientKey reqA := by
    rw [hfrom]
    exact Ne.symm hdistinct
  have hentry : (rateLimiter maxRequests windowMs requests nowA reqA).1 b = requests b := by
    by_cases hc : (((requests.stored (clientKey reqA)).filter
        (fun time => time > nowA - windowMs)).length : Int) ≥ maxRequests
    · exact (rateLimiter_reject maxRequests windowMs requests nowA reqA hc).2.2 b hne
    · exact (rateLimiter_allow maxRequests windowMs requests nowA reqA hc).2.2 b hne
  refine ⟨hentry, ?_, ?_⟩
  · intro nowB reqB hB
    apply (rateLimiter_congr maxRequests windowMs _ _ nowB reqB _).1
    unfold RequestMap.stored
    rw [hB, hentry]
  · intro events
    exact (rateLimiterRun_project maxRequests windowMs b events requests requests rfl).1

/-- A witness for `rateLimiter_keys_independent`: with `maxRequests = 1`, the
second request of `10.0.0.2` is rejected whether or not `10.0.0.1` sends
requests in between. -/
theorem rateLimiter_keys_independent_witness :
    outcomesFor (some "10.0.0.2")
        [(0, clientRequest "10.0.0.2"), (1, clientRequest "10.0.0.1"),
          (2, clientRequest "10.0.0.1"), (3, clientRequest "10.0.0.2")]
        (rateLimiterRun 1 1000 RequestMap.empty
          [(0, clientRequest "10.0.0.2"), (1, clientRequest "10.0.0.1"),
            (2, clientRequest "10.0.0.1"), (3, clientRequest "10.0.0.2")]).2 =
      (rateLimiterRun 1 1000 RequestMap.empty
        ([(0, clientRequest "10.0.0.2"), (1, clientRequest "10.0.0.1"),
          (2, clientRequest "10.0.0.1"), (3, clientRequest "10.0.0.2")].filter
            (fun e => clientKey e.2 = some "10.0.0.2"))).2 ∧
    (rateLimiterRun 1 1000 RequestMap.empty
        [(0, clientRequest "10.0.0.2"), (3, clientRequest "10.0.0.2")]).2 =
      [.next (clientRequest "10.0.0.2"), .respond (limitResponse 1 1000)] :=
  ⟨(rateLimiter_keys_independent 1 1000 RequestMap.empty (some "10.0.0.1") (some "10.0.0.2") 1
      (clientRequest "10.0.0.1") (by decide) (by decide)).2.2
      [(0, clientRequest "10.0.0.2"), (1, clientRequest "10.0.0.1"),
        (2, clientRequest "10.0.0.1"), (3, clientRequest "10.0.0.2")],
    by decide⟩

/-- C15: for every integer `maxRequests >= 0` and every sequence of requests
handled by a fresh limiter, the list of timestamps stored for each key has at
most `maxRequests` entries; and a rejected request leaves the timestamps
stored for its key, and the entry of the key if it has one, as they are. -/
theorem rateLimiter_stored_bounded (maxRequests windowMs : Int) (events : List (Int × Req))
    (hmax : 0 ≤ maxRequests) :
    (∀ key, (((rateLimiterRun maxRequests windowMs RequestMap.empty events).1.stored key).length
      : Int) ≤ maxRequests) ∧
    (∀ (requests : RequestMap) (now : Int) (req : Req),
      (∃ res, (rateLimiter maxRequests windowMs requests now req).2 = .respond res) →
      (rateLimiter maxRequests windowMs requests now req).1.stored (clientKey req) =
          requests.stored (clientKey req) ∧
        ∀ list, requests (clientKey req) = some list →
          (rateLimiter maxRequests windowMs requests now req).1 (clientKey req) = some list) := by
  constructor
  · intro key
    rcases storedBounded_run maxRequests windowMs events RequestMap.empty
      (storedBounded_empty maxRequests) key with h | h
    · rw [h]
      simpa using hmax
    · exact h
  · rintro requests now req ⟨res, hres⟩
    by_cases hc : (((requests.stored (clientKey req)).filter
        (fun time => time > now - windowMs)).length : Int) ≥ maxRequests
    · obtain ⟨-, hst, -⟩ := rateLimiter_reject maxRequests windowMs requests now req hc
      constructor
      · show ((rateLimiter maxRequests windowMs requests now req).1 (clientKey req)).getD [] = _
        rw [hst]
        rfl
      · intro list hlist
        rw [hst]
        unfold RequestMap.stored
        rw [hlist]
        rfl
    · rw [(rateLimiter_allow maxRequests windowMs requests now req hc).1] at hres
      cases hres

/-- A witness for `rateLimiter_stored_bounded`: `maxRequests = 2` and a
window of 1000 ms; after requests at 0, 1, 2 and 1500 ms the key holds 1500
only. -/
theorem rateLimiter_stored_bounded_witness :
    (rateLimiterRun 2 1000 RequestMap.empty
        [(0, clientRequest "10.0.0.1"), (1, clientRequest "10.0.0.1"),
          (2, clientRequest "10.0.0.1"), (1500, clientRequest "10.0.0.1")]).1.stored
        (some "10.0.0.1") = [1500] ∧
    ∀ key, (((rateLimiterRun 2 1000 RequestMap.empty
        [(0, clientRequest "10.0.0.1"), (1, clientRequest "10.0.0.1"),
          (2, clientRequest "10.0.0.1"), (1500, clientRequest "10.0.0.1")]).1.stored key).length
      : Int) ≤ 2 :=
  ⟨by decide,
    (rateLimiter_stored_bounded 2 1000
      [(0, clientRequest "10.0.0.1"), (1, clientRequest "10.0.0.1"),
        (2, clientRequest "10.0.0.1"), (1500, clientRequest "10.0.0.1")] (by decide)).1⟩

/-! ## Precedence in `requireOwnership`, and `requireUserType` without an identity -/

/-- C16: in `requireOwnership(f)`, a non-empty string under `f` in the path
parameters takes precedence over the body. When it differs from the subject
id, the request is denied with 403 whatever the body holds, also when
`req.body[f]` is the subject id; with any truthy path value the outcome does
not depend on the body; and the body value is compared only when the path
value is absent or falsy (`undefined`, `null`, `false`, `0` or the empty
string). -/
theorem requireOwnership_path_precedence (f : String) (req : Req) (claims : Claims)
    (hauth : req.user = .val claims) :
    (∀ path : String, req.params.get f = .str path → path ≠ "" → claims.userId ≠ .str path →
      ∀ body, requireOwnership f { req with body := body } =
        .respond { status := 403, error := "Acceso denegado",
                   message := .text "No tienes permisos para acceder a este recurso" }) ∧
    (req.params.get f ≠ .undefined → req.params.get f ≠ .null →
      req.params.get f ≠ .bool false → req.params.get f ≠ .num 0 →
      req.params.get f ≠ .str "" →
      ∀ body, requireOwnership f { req with body := body } =
        (if claims.userId.strictEq (req.params.get f) then .next { req with body := body }
         else .respond { status := 403, error := "Acceso denegado",
                         message := .text "No tienes permisos para acceder a este recurso" })) ∧
    ((req.params.get f = .undefined ∨ req.params.get f = .null ∨
        req.params.get f = .bool false ∨ req.params.get f = .num 0 ∨
        req.params.get f = .str "") →
      ∀ body, req.body = some body →
        requireOwnership f req =
          (if claims.userId.strictEq (body.get f) then .next req
           else .respond { status := 403, error := "Acceso denegado",
                           message := .text "No tienes permisos para acceder a este recurso" })) := by
  refine ⟨?_, ?_, ?_⟩
  · intro path hpath hne hdiff body
    have htruthy : (JsVal.str path).truthy = true := by
      simp [JsVal.truthy, hne]
    have hneq : claims.userId.strictEq (.str path) = false := by
      cases hs : claims.userId.strictEq (.str path) with
      | false => rfl
      | true => exact absurd ((strictEq_eq_true_iff _ _).mp hs).1 hdiff
    simp [requireOwnership, hauth, resourceUserId, htruthy, hpath, hneq]
  · intro h1 h2 h3 h4 h5 body
    have htruthy := truthy_of_not_falsy _ h1 h2 h3 h4 h5
    by_cases hs : claims.userId.strictEq (req.params.get f) = true
    · simp [requireOwnership, hauth, resourceUserId, htruthy, hs]
    · simp [requireOwnership, hauth, resourceUserId, htruthy, hs]
  · intro hfalsy body hbody
    have hfalse : (req.params.get f).truthy = false := by
      rcases hfalsy with h | h | h | h | h <;> rw [h] <;> rfl
    by_cases hs : claims.userId.strictEq (body.get f) = true
    · simp [requireOwnership, hauth, resourceUserId, hfalse, hbody, hs]
    · simp [requireOwnership, hauth, resourceUserId, hfalse, hbody, hs]

/-- A witness for `requireOwnership_path_precedence`, with the subject `u3`:
it names `u1` in the path and itself in the body, and is denied; with an empty
string in the path, its own id in the body is compared and it passes. -/
theorem requireOwnership_path_precedence_witness :
    requireOwnership "userId"
        (ownerRequest [("userId", .str "u1")] (some [("userId", .str "u3")])) =
      .respond { status := 403, error := "Acceso denegado",
                 message := .text "No tienes permisos para acceder a este recurso" } ∧
    requireOwnership "userId"
        (ownerRequest [("userId", .str "")] (some [("userId", .str "u3")])) =
      .next (ownerRequest [("userId", .str "")] (some [("userId", .str "u3")])) :=
  ⟨(requireOwnership_path_precedence "userId"
      (ownerRequest [("userId", .str "u1")] (some [("userId", .str "u3")]))
      { userId := .str "u3", iat := 1, exp := 3 } rfl).1 "u1" (by decide) (by decide) (by decide)
      (some [("userId", .str "u3")]),
   (requireOwnership_path_precedence "userId"
      (ownerRequest [("userId", .str "")] (some [("userId", .str "u3")]))
      { userId := .str "u3", iat := 1, exp := 3 } rfl).2.2
      (Or.inr (Or.inr (Or.inr (Or.inr (by decide))))) [("userId", .str "u3")] rfl⟩

/-- C17: on a request without a resolved identity, `req.userDetails` being
`undefined` (no `authenticateToken` before) or `null` (left so by
`optionalAuth`), `requireUserType` answers 500 for every argument and does not
call `next`; the status is neither 401 nor 403. A request that `optionalAuth`
hands on as anonymous is such a request. -/
theorem requireUserType_without_identity (userTypes : UserTypes) (req : Req)
    (hnone : req.userDetails = .undefined ∨ req.userDetails = .null) :
    requireUserType userTypes req =
        .respond { status := 500, error := "Error interno del servidor",
                   message := .text "No se pudo verificar el tipo de usuario" } ∧
    (∀ req', requireUserType userTypes req ≠ .next req') ∧
    (∀ res, requireUserType userTypes req = .respond res → res.status ≠ 401 ∧ res.status ≠ 403) ∧
    (∀ jwt env findUnique clock (before : Req),
      optionalAuth jwt env findUnique clock before =
          .next { before with user := .null, userDetails := .null } →
        requireUserType userTypes { before with user := .null, userDetails := .null } =
          .respond { status := 500, error := "Error interno del servidor",
                     message := .text "No se pudo verificar el tipo de usuario" }) := by
  have h500 : requireUserType userTypes req =
      .respond { status := 500, error := "Error interno del servidor",
                 message := .text "No se pudo verificar el tipo de usuario" } := by
    rcases hnone with h | h <;> simp [requireUserType, h]
  refine ⟨h500, ?_, ?_, ?_⟩
  · intro req' h
    rw [h500] at h
    cases h
  · intro res h
    rw [h500] at h
    cases h
    decide
  · intro _ _ _ _ before _
    simp [requireUserType]

/-- A witness for `requireUserType_without_identity`: a request without a
token goes through `optionalAuth` and then meets `requireUserType("WALKER")`. -/
theorem requireUserType_without_identity_witness :
    optionalAuth sampleJwt sampleEnv sampleUsers 2 (requestWithHeader none) =
      .next { requestWithHeader none with user := .null, userDetails := .null } ∧
    requireUserType (.one "WALKER")
        { requestWithHeader none with user := .null, userDetails := .null } =
      .respond { status := 500, error := "Error interno del servidor",
                 message := .text "No se pudo verificar el tipo de usuario" } :=
  ⟨by decide,
    (requireUserType_without_identity (.one "WALKER")
      { requestWithHeader none with user := .null, userDetails := .null }
      (Or.inr rfl)).1⟩

/-! ## Rooms and broadcasts -/

theorem mem_join_self (rooms : Rooms) (room : String) (socket : SocketId) :
    socket ∈ rooms.join room socket room := by
  unfold Rooms.join
  by_cases h : socket ∈ rooms room
  · simp [h]
  · simp [h]

theorem mem_join_of_mem (rooms : Rooms) (room r : String) (socket c : SocketId)
    (h : c ∈ rooms r) : c ∈ rooms.join room socket r := by
  unfold Rooms.join
  split_ifs with h1 h2
  · exact h
  · exact List.mem_append_left _ h
  · exact h

theorem mem_join_iff (rooms : Rooms) (room r : String) (socket c : SocketId) :
    c ∈ rooms.join room socket r ↔ c ∈ rooms r ∨ (r = room ∧ c = socket) := by
  unfold Rooms.join
  split_ifs with h1 h2
  · constructor
    · exact Or.inl
    · rintro (h | ⟨-, rfl⟩)
      · exact h
      · exact h2
  · simp [h1]
  · simp [h1]

theorem nodup_join (rooms : Rooms) (room : String) (socket : SocketId)
    (h : ∀ r, (rooms r).Nodup) : ∀ r, (rooms.join room socket r).Nodup := by
  intro r
  unfold Rooms.join
  split_ifs with h1 h2
  · exact h r
  · rw [List.nodup_append]
    refine ⟨h r, List.nodup_singleton _, ?_⟩
    intro x hx hx'
    rw [List.mem_singleton] at hx'
    exact h2 (hx' ▸ hx)
  · exact h r

theorem roomName_eq_iff (otherText : JsVal → String) (s s' : JsVal) :
    roomName otherText s' = roomName otherText s ↔
      s'.toJsString otherText = s.toJsString otherText := by
  unfold roomName
  constructor
  · intro h
    apply String.ext
    have := congrArg String.data h
    rw [String.data_append, String.data_append] at this
    exact List.append_cancel_left this
  · intro h
    rw [h]

/-- No connection is twice in a room, in every registry the server reaches. -/
theorem nodup_serverRun (otherText : JsVal → String) (events : List SocketEvent) :
    ∀ rooms : Rooms, (∀ r, (rooms r).Nodup) →
      ∀ r, (serverRun otherText rooms events r).Nodup := by
  induction events with
  | nil => exact fun _ h => h
  | cons e rest ih =>
    intro rooms h
    show ∀ r, (serverRun otherText (serverStep otherText rooms e) rest r).Nodup
    apply ih
    cases e with
    | joinService socket serviceId => exact nodup_join rooms _ socket h
    | sendMessage socket data => exact h
    | disconnect socket => exact fun r => (h r).filter _

/-- A connection stays in a room until it disconnects. -/
theorem mem_serverRun_of_mem (otherText : JsVal → String) (events : List SocketEvent)
    (c : SocketId) (r : String) (hstays : SocketEvent.disconnect c ∉ events) :
    ∀ rooms : Rooms, c ∈ rooms r → c ∈ serverRun otherText rooms events r := by
  induction events with
  | nil => exact fun _ h => h
  | cons e rest ih =>
    intro rooms h
    show c ∈ serverRun otherText (serverStep otherText rooms e) rest r
    apply ih (fun hmem => hstays (List.mem_cons_of_mem _ hmem))
    cases e with
    | joinService socket serviceId => exact mem_join_of_mem rooms _ r socket c h
    | sendMessage socket data => exact h
    | disconnect socket =>
      have hne : c ≠ socket := by
        rintro rfl
        exact hstays (List.mem_cons_self _ _)
      show c ∈ (rooms r).filter (fun s => s ≠ socket)
      rw [List.mem_filter]
      exact ⟨h, by simpa using hne⟩

/-- A connection is in a room only if it was there at the start or has joined
it. -/
theorem joined_of_mem_serverRun (otherText : JsVal → String) (events : List SocketEvent)
    (c : SocketId) (r : String) :
    ∀ rooms : Rooms, c ∈ serverRun otherText rooms events r →
      c ∈ rooms r ∨ ∃ s, SocketEvent.joinService c s ∈ events ∧ roomName otherText s = r := by
  induction events with
  | nil => exact fun _ h => Or.inl h
  | cons e rest ih =>
    intro rooms h
    change c ∈ serverRun otherText (serverStep otherText rooms e) rest r at h
    rcases ih _ h with hstep | ⟨s, hs, hr⟩
    · cases e with
      | joinService socket serviceId =>
        change c ∈ rooms.join (roomName otherText serviceId) socket r at hstep
        rw [mem_join_iff] at hstep
        rcases hstep with hold | ⟨hr, hc⟩
        · exact Or.inl hold
        · right
          refine ⟨serviceId, ?_, hr.symm⟩
          rw [hc]
          exact List.mem_cons_self _ _
      | sendMessage socket data => exact Or.inl hstep
      | disconnect socket =>
        change c ∈ (rooms r).filter (fun s => s ≠ socket) at hstep
        exact Or.inl (List.mem_filter.mp hstep).1
    · exact Or.inr ⟨s, List.mem_cons_of_mem _ hs, hr⟩

/-- A broadcast reaches a connection as often as the connection is listed in
the room. -/
theorem deliveredTo_emitTo (rooms : Rooms) (room name : String) (payload : ReceiveMessage)
    (c : SocketId) :
    deliveredTo (rooms.emitTo room name payload) c = (rooms room).count c := by
  unfold deliveredTo Rooms.emitTo
  induction rooms room with
  | nil => rfl
  | cons s rest ih =>
    by_cases h : s = c
    · simp only [List.map_cons, List.filter_cons, h, decide_True, if_true, List.length_cons,
        List.count_cons_self]
      rw [← ih]
    · have h' : (s == c) = false := by simpa using h
      simp only [List.map_cons, List.filter_cons, h, decide_False, Bool.false_eq_true, if_false,
        List.count_cons, h', Nat.add_zero]
      rw [← ih]

/-- What a `send_message` for the service `s` delivers, in a registry reached
from an empty one: one event to each connection in the room
`"service_" ++ text of s`, none to any other connection, and none to a
connection that never joined a service with the text of `s`. -/
theorem sendMessage_deliveries (otherText : JsVal → String) (events : List SocketEvent)
    (sender : SocketId) (s : JsVal) (data : JsObject) (clock : Int)
    (hservice : data.get "serviceId" = s) :
    ∃ deliveries,
      sendMessage otherText (serverRun otherText Rooms.empty events) sender clock (some data) =
        some deliveries ∧
      (∀ c, c ∈ serverRun otherText Rooms.empty events ("service_" ++ s.toJsString otherText) →
        deliveredTo deliveries c = 1) ∧
      (∀ c, c ∉ serverRun otherText Rooms.empty events ("service_" ++ s.toJsString otherText) →
        deliveredTo deliveries c = 0) ∧
      (∀ c, (∀ s', SocketEvent.joinService c s' ∈ events →
          s'.toJsString otherText ≠ s.toJsString otherText) →
        deliveredTo deliveries c = 0) ∧
      (∀ d ∈ deliveries, d.name = "receive_message") := by
  have hnodup := nodup_serverRun otherText events Rooms.empty (fun _ => List.nodup_nil)
    ("service_" ++ s.toJsString otherText)
  refine ⟨(serverRun otherText Rooms.empty events).emitTo
    ("service_" ++ s.toJsString otherText) "receive_message"
    { message := data.get "message", senderId := data.get "senderId", timestamp := clock },
    ?_, ?_, ?_, ?_, ?_⟩
  · simp only [sendMessage, hservice, roomName]
  · intro c hc
    rw [deliveredTo_emitTo]
    exact List.count_eq_one_of_mem hnodup hc
  · intro c hc
    rw [deliveredTo_emitTo]
    exact List.count_eq_zero_of_not_mem hc
  · intro c hnever
    rw [deliveredTo_emitTo]
    apply List.count_eq_zero_of_not_mem
    intro hmem
    rcases joined_of_mem_serverRun otherText _ c _ Rooms.empty hmem with h | ⟨s', hs', hr⟩
    · cases h
    · exact hnever s' hs' ((roomName_eq_iff otherText s s').mp hr)
  · intro d hd
    simp only [Rooms.emitTo, List.mem_map] at hd
    obtain ⟨_, -, rfl⟩ := hd
    rfl

/-- C13: for every service id `s` and every earlier history, once a connection
`c1` has handled `join_service(s)` it is in the room named `service_` followed
by the text of `s`, and a `send_message` with `serviceId = s` from any
connection delivers exactly one `receive_message` event to `c1`. In every
later state such a message delivers exactly one event to every connection
that is in that room at the time, none to a connection that is not, and none
to a connection that never joined a service with the text of `s`; `c1` is
among the receivers as long as it has not disconnected. -/
theorem sendMessage_reaches_room (otherText : JsVal → String) (before after : List SocketEvent)
    (c1 sender : SocketId) (s : JsVal) (data : JsObject) (clock : Int)
    (hservice : data.get "serviceId" = s) :
    c1 ∈ serverRun otherText Rooms.empty (before ++ [.joinService c1 s])
      ("service_" ++ s.toJsString otherText) ∧
    (∃ deliveries,
      sendMessage otherText (serverRun otherText Rooms.empty (before ++ [.joinService c1 s]))
        sender clock (some data) = some deliveries ∧
      deliveredTo deliveries c1 = 1 ∧
      (∀ d ∈ deliveries, d.name = "receive_message")) ∧
    (∃ deliveries,
      sendMessage otherText
        (serverRun otherText Rooms.empty (before ++ .joinService c1 s :: after))
        sender clock (some data) = some deliveries ∧
      (∀ c, c ∈ serverRun otherText Rooms.empty (before ++ .joinService c1 s :: after)
          ("service_" ++ s.toJsString otherText) →
        deliveredTo deliveries c = 1) ∧
      (∀ c, c ∉ serverRun otherText Rooms.empty (before ++ .joinService c1 s :: after)
          ("service_" ++ s.toJsString otherText) →
        deliveredTo deliveries c = 0) ∧
      (∀ c, (∀ s', SocketEvent.joinService c s' ∈ before ++ .joinService c1 s :: after →
          s'.toJsString otherText ≠ s.toJsString otherText) →
        deliveredTo deliveries c = 0) ∧
      (SocketEvent.disconnect c1 ∉ after → deliveredTo deliveries c1 = 1) ∧
      (∀ d ∈ deliveries, d.name = "receive_message")) := by
  have hsplit : ∀ later, serverRun otherText Rooms.empty (before ++ .joinService c1 s :: later) =
      serverRun otherText (joinService otherText (serverRun otherText Rooms.empty before) c1 s)
        later := by
    intro later
    simp [serverRun, List.foldl_append, serverStep]
  have hjoined : c1 ∈ joinService otherText (serverRun otherText Rooms.empty before) c1 s
      ("service_" ++ s.toJsString otherText) :=
    mem_join_self _ _ _
  have hnow : c1 ∈ serverRun otherText Rooms.empty (before ++ [.joinService c1 s])
      ("service_" ++ s.toJsString otherText) := by
    rw [hsplit []]
    exact hjoined
  refine ⟨hnow, ?_, ?_⟩
  · obtain ⟨deliveries, hsend, hmem, -, -, hname⟩ :=
      sendMessage_deliveries otherText (before ++ [.joinService c1 s]) sender s data clock
        hservice
    exact ⟨deliveries, hsend, hmem c1 hnow, hname⟩
  · obtain ⟨deliveries, hsend, hmem, hout, hnever, hname⟩ :=
      sendMessage_deliveries otherText (before ++ .joinService c1 s :: after) sender s data
        clock hservice
    refine ⟨deliveries, hsend, hmem, hout, hnever, ?_, hname⟩
    intro hstays
    apply hmem
    rw [hsplit after]
    exact mem_serverRun_of_mem otherText after c1 _ hstays _ hjoined

/-- A witness for `sendMessage_reaches_room`: `c2` joins service 6, `c3` joins
the service `"5"` and `c1` joins the service 5, whose room is `service_5` as
well. The message for service 5 reaches `c3` and `c1` once each and `c2` not
at all. -/
theorem sendMessage_reaches_room_witness :
    roomName sampleOtherText (.num 5) = "service_5" ∧
    sendMessage sampleOtherText
        (serverRun sampleOtherText Rooms.empty
          [.joinService "c2" (.num 6), .joinService "c3" (.str "5"),
            .joinService "c1" (.num 5)])
        "c2" 77 (some [("serviceId", .num 5), ("message", .str "hi"), ("senderId", .str "u1")]) =
      some [{ socket := "c3", name := "receive_message",
              payload := { message := .str "hi", senderId := .str "u1", timestamp := 77 } },
            { socket := "c1", name := "receive_message",
              payload := { message := .str "hi", senderId := .str "u1", timestamp := 77 } }] ∧
    ∃ deliveries,
      sendMessage sampleOtherText
        (serverRun sampleOtherText Rooms.empty
          ([.joinService "c2" (.num 6), .joinService "c3" (.str "5")] ++
            [.joinService "c1" (.num 5)]))
        "c2" 77 (some [("serviceId", .num 5), ("message", .str "hi"), ("senderId", .str "u1")]) =
        some deliveries ∧
      deliveredTo deliveries "c1" = 1 ∧
      (∀ d ∈ deliveries, d.name = "receive_message") :=
  ⟨by decide, by decide,
    (sendMessage_reaches_room sampleOtherText
      [.joinService "c2" (.num 6), .joinService "c3" (.str "5")] [] "c1" "c2" (.num 5)
      [("serviceId", .num 5), ("message", .str "hi"), ("senderId", .str "u1")] 77
      (by decide)).2.1⟩

/-- C14: the timestamp of a broadcast `receive_message` is the clock reading
of the server at the moment of the broadcast and is not taken from the
sender: two `send_message` payloads that agree on `serviceId`, `message` and
`senderId`, whatever else they carry, produce at the same clock reading the
same deliveries, and each delivered event consists of the message, the sender
id and the server timestamp. -/
theorem sendMessage_server_timestamp (otherText : JsVal → String) (rooms : Rooms)
    (sender1 sender2 : SocketId) (clock : Int) (data1 data2 : JsObject)
    (hservice : data1.get "serviceId" = data2.get "serviceId")
    (hmessage : data1.get "message" = data2.get "message")
    (hsender : data1.get "senderId" = data2.get "senderId") :
    sendMessage otherText rooms sender1 clock (some data1) =
      sendMessage otherText rooms sender2 clock (some data2) ∧
    ∃ deliveries, sendMessage otherText rooms sender1 clock (some data1) = some deliveries ∧
      ∀ d ∈ deliveries, d.name = "receive_message" ∧
        d.payload = { message := data1.get "message", senderId := data1.get "senderId",
                      timestamp := clock } := by
  refine ⟨?_, _, rfl, ?_⟩
  · simp only [sendMessage, hservice, hmessage, hsender]
  · intro d hd
    simp only [Rooms.emitTo, List.mem_map] at hd
    obtain ⟨_, -, rfl⟩ := hd
    exact ⟨rfl, rfl⟩

/-- A witness for `sendMessage_server_timestamp`: one payload carries a
timestamp of its own, the other does not; at the clock reading 77 both produce
the event stamped 77. -/
theorem sendMessage_server_timestamp_witness :
    sendMessage sampleOtherText (joinService sampleOtherText Rooms.empty "c1" (.num 5)) "c2" 77
        (some [("serviceId", .num 5), ("message", .str "hi"), ("senderId", .str "u1"),
          ("timestamp", .str "1999-01-01T00:00:00.000Z")]) =
      sendMessage sampleOtherText (joinService sampleOtherText Rooms.empty "c1" (.num 5)) "c3" 77
        (some [("serviceId", .num 5), ("message", .str "hi"), ("senderId", .str "u1")]) ∧
    sendMessage sampleOtherText (joinService sampleOtherText Rooms.empty "c1" (.num 5)) "c2" 77
        (some [("serviceId", .num 5), ("message", .str "hi"), ("senderId", .str "u1"),
          ("timestamp", .str "1999-01-01T00:00:00.000Z")]) =
      some [{ socket := "c1", name := "receive_message",
              payload := { message := .str "hi", senderId := .str "u1", timestamp := 77 } }] :=
  ⟨(sendMessage_server_timestamp sampleOtherText
      (joinService sampleOtherText Rooms.empty "c1" (.num 5)) "c2" "c3" 77
      [("serviceId", .num 5), ("message", .str "hi"), ("senderId", .str "u1"),
        ("timestamp", .str "1999-01-01T00:00:00.000Z")]
      [("serviceId", .num 5), ("message", .str "hi"), ("senderId", .str "u1")]
      (by decide) (by decide) (by decide)).1,
    by decide⟩

end DogWalker
